import Mathlib

/-!
Verification of bcut-asr-go: result formatter, upload protocol and polling loop.

A shallow embedding of `pkg/types/types.go` and `pkg/asr/asr.go`.

* Go strings are Lean `String`s, `int64` timestamps are `Int` (the formatter only
  divides by positive constants, so no operation on them can overflow), Go's `/` and `%`
  are the truncating `Int.tdiv` and `Int.tmod`.
* `fmt.Sprintf` verbs are embedded by `fmtD` (`%d`) and `fmtD0` (`%0wd`).
-/

namespace Bcut

/-! ## `fmt` verbs used by the formatter -/

/-- Decimal digits of a natural number, most significant first (`strconv` digits). -/
def decimal (n : Nat) : String := Nat.repr n

/-- The verb `%d` of `fmt.Sprintf` on a signed integer: a minus sign for negative values,
then the decimal digits of the magnitude. -/
def fmtD (x : Int) : String :=
  if x < 0 then "-" ++ decimal x.natAbs else decimal x.natAbs

/-- Left padding with the character `0` up to `prec` characters. -/
def zeroFill (prec : Nat) (digits : String) : String :=
  String.mk (List.replicate (prec - digits.length) '0') ++ digits

/-- The verb `%0wd` of `fmt.Sprintf`: the digits of the magnitude are padded with zeros up
to the width `w`, one less when a sign has to be written, and the sign goes in front. -/
def fmtD0 (w : Nat) (x : Int) : String :=
  if x < 0 then "-" ++ zeroFill (w - 1) (decimal x.natAbs) else zeroFill w (decimal x.natAbs)

/-! ## `pkg/types/types.go`: the result structure -/

/-- Word level span of an utterance (`types.Words`). -/
structure Words where
  Label : String
  StartTime : Int
  EndTime : Int
  deriving DecidableEq, Repr

/-- One recognised sentence (`types.Utterance`); times are milliseconds. -/
structure Utterance where
  StartTime : Int
  EndTime : Int
  Transcript : String
  Words : List Words
  deriving DecidableEq, Repr

/-- The recognition result (`types.ASRResult`). -/
structure ASRResult where
  Utterances : List Utterance
  Version : String
  deriving DecidableEq, Repr

/-- Go `formatSRTTimestamp(start, end)`:
`Sprintf("%02d:%02d:%02d,%03d --> %02d:%02d:%02d,%03d", ...)`. -/
def formatSRTTimestamp (start stop : Int) : String :=
  fmtD0 2 (start.tdiv 3600000) ++ ":" ++ fmtD0 2 ((start.tdiv 60000).tmod 60) ++ ":" ++
    fmtD0 2 ((start.tdiv 1000).tmod 60) ++ "," ++ fmtD0 3 (start.tmod 1000) ++ " --> " ++
    fmtD0 2 (stop.tdiv 3600000) ++ ":" ++ fmtD0 2 ((stop.tdiv 60000).tmod 60) ++ ":" ++
    fmtD0 2 ((stop.tdiv 1000).tmod 60) ++ "," ++ fmtD0 3 (stop.tmod 1000)

/-- Go `formatLRCTimestamp(ts)`: `Sprintf("%02d:%02d.%02d", ts/60000, (ts/1000)%60, (ts%1000)/10)`. -/
def formatLRCTimestamp (ts : Int) : String :=
  fmtD0 2 (ts.tdiv 60000) ++ ":" ++ fmtD0 2 ((ts.tdiv 1000).tmod 60) ++ "." ++
    fmtD0 2 ((ts.tmod 1000).tdiv 10)

/-- Body of the `for i, u := range r.Utterances` loop of `ToSRT`: `i` is the loop index and
`result` the string built so far. -/
def ToSRT.loop : List Utterance → Nat → String → String
  | [], _, result => result
  | u :: us, i, result =>
    ToSRT.loop us (i + 1)
      (result ++ (fmtD ((i : Int) + 1) ++ "\n" ++ formatSRTTimestamp u.StartTime u.EndTime ++ "\n" ++
        u.Transcript ++ "\n\n"))

/-- Go `(*ASRResult).ToSRT`. -/
def ToSRT (r : ASRResult) : String := ToSRT.loop r.Utterances 0 ""

/-- Go `(*ASRResult).ToLRC`: `result += Sprintf("[%s]%s\n", formatLRCTimestamp(u.StartTime), u.Transcript)`. -/
def ToLRC (r : ASRResult) : String :=
  r.Utterances.foldl
    (fun result u => result ++ ("[" ++ formatLRCTimestamp u.StartTime ++ "]" ++ u.Transcript ++ "\n")) ""

/-- Go `(*ASRResult).ToTXT`: `result += u.Transcript + "\n"`. -/
def ToTXT (r : ASRResult) : String :=
  r.Utterances.foldl (fun result u => result ++ (u.Transcript ++ "\n")) ""

/-! ## Reference renderings the formatter is compared with -/

/-- One SRT entry as the specification words it: index line, timestamp range line,
transcript line, blank separator line. -/
def srtEntry (index : Nat) (u : Utterance) : String :=
  toString index ++ "\n" ++ formatSRTTimestamp u.StartTime u.EndTime ++ "\n" ++ u.Transcript ++ "\n" ++ "\n"

/-- A number below one hundred written with exactly two decimal digits. -/
def twoDigits (k : Nat) : String := String.mk [Nat.digitChar (k / 10), Nat.digitChar (k % 10)]

/-- A number below one thousand written with exactly three decimal digits. -/
def threeDigits (k : Nat) : String :=
  String.mk [Nat.digitChar (k / 100), Nat.digitChar (k / 10 % 10), Nat.digitChar (k % 10)]

/-- A number written with at least two decimal digits, zero-padded. -/
def atLeastTwoDigits (k : Nat) : String := if k < 10 then "0" ++ toString k else toString k

/-- One side `HH:MM:SS,mmm` of an SRT timestamp range, for a millisecond count. -/
def srtSide (ms : Nat) : String :=
  twoDigits (ms / 3600000) ++ ":" ++ twoDigits (ms / 60000 % 60) ++ ":" ++
    twoDigits (ms / 1000 % 60) ++ "," ++ threeDigits (ms % 1000)

/-- The stamp `MM:SS.cc` of an LRC line, for a millisecond count. -/
def lrcStamp (ts : Nat) : String :=
  atLeastTwoDigits (ts / 60000) ++ ":" ++ twoDigits (ts / 1000 % 60) ++ "." ++ twoDigits (ts % 1000 / 10)

/-- One LRC line as the specification words it. -/
def lrcLine (u : Utterance) : String :=
  "[" ++ formatLRCTimestamp u.StartTime ++ "]" ++ u.Transcript ++ "\n"

/-- Splitting of a text into its lines: every `\n` ends a line, and a non-empty rest after
the last `\n` counts as a line. `cur` holds the characters of the line being read. -/
def splitLines : List Char → List Char → List String
  | [], cur => if cur = [] then [] else [String.mk cur]
  | c :: cs, cur => if c = '\n' then String.mk cur :: splitLines cs [] else splitLines cs (cur ++ [c])

/-- The lines of a text. -/
def textLines (s : String) : List String := splitLines s.data []

/-! ## Go runtime values used by `pkg/asr/asr.go`

`int` is the 64-bit two's complement integer of the supported targets: sums and products are
reduced by `wrapInt`. A byte slice is a list of bytes; the Go runtime never allocates more
than `maxAlloc` bytes at once, so the length of a payload held in memory is at most `maxAlloc`. -/

/-- One byte of a `[]byte`. -/
abbrev Byte := Fin 256

/-- Two's complement reduction of a mathematical integer to the range of Go's 64-bit `int`. -/
def wrapInt (x : Int) : Int := (x + 2 ^ 63) % 2 ^ 64 - 2 ^ 63

/-- An upper bound on the size of a single allocation of the Go runtime on 64-bit targets: the
heap address space has 48 bits on most of them and never more than 60. -/
def maxAlloc : Nat := 2 ^ 60

/-- Go `error` values: a message, the cancellation error returned by `ctx.Err()`, or an error
wrapped by `fmt.Errorf("...: %w", err)`. -/
inductive GoError where
  | text (msg : String)
  | canceled
  | wrap (msg : String) (inner : GoError)
  deriving DecidableEq, Repr

/-- Go `err.Error()`. -/
def GoError.Error : GoError → String
  | .text msg => msg
  | .canceled => "context canceled"
  | .wrap msg inner => msg ++ inner.Error

/-- Go `errors.Is(err, target)` for a target that is not itself a wrapper: the chain of wrapped
errors is searched for the target. -/
def GoError.Is : GoError → GoError → Bool
  | .wrap msg inner, target => (GoError.wrap msg inner == target) || inner.Is target
  | e, target => e == target

/-- How a call ends: a value with a nil error, a non-nil error, or a run-time panic. -/
inductive Outcome (α : Type) where
  | ok (value : α)
  | err (e : GoError)
  | panic (msg : String)
  deriving DecidableEq, Repr

/-- The slice expression `data[lo:hi]`: it panics unless `0 <= lo <= hi <= len(data)`. (Go
checks `hi` against the capacity; every `hi` used here is at most the length.) -/
def goSlice (data : List Byte) (lo hi : Int) : Option (List Byte) :=
  if 0 ≤ lo ∧ lo ≤ hi ∧ hi ≤ (data.length : Int) then some ((data.take hi.toNat).drop lo.toNat) else none

/-! ## `strings` and `path/filepath` (Unix build: the separator is `/`) -/

/-- Go `strings.Join(elems, sep)`. -/
def stringsJoin : List String → String → String
  | [], _ => ""
  | [a], _ => a
  | a :: b :: rest, sep => a ++ sep ++ stringsJoin (b :: rest) sep

/-- Go `strings.TrimSuffix(s, suffix)`. -/
def TrimSuffix (s suffix : String) : String :=
  if suffix.data.isSuffixOf s.data then String.mk (s.data.take (s.data.length - suffix.data.length)) else s

/-- Go `unicode.ToLower` on one rune: ASCII letters by the ASCII rule, every other rune by the
case table of the `unicode` package, which is the argument `table`. -/
def lowerRune (table : Char → Char) (c : Char) : Char :=
  if c.toNat < 128 then c.toLower else table c

/-- Go `strings.ToLower(s)`. -/
def ToLower (table : Char → Char) (s : String) : String := String.mk (s.data.map (lowerRune table))

/-- Scan of `filepath.Ext` from the end of the path: `rev` holds the characters not yet
visited, last first, and `acc` the characters already passed. -/
def Ext.scan : List Char → List Char → List Char
  | [], _ => []
  | c :: rev, acc =>
    if c = '/' then [] else if c = '.' then c :: acc else Ext.scan rev (c :: acc)

/-- Go `filepath.Ext(path)`: the suffix starting at the last dot of the last path element, empty
when that element has no dot. -/
def Ext (path : String) : String := String.mk (Ext.scan path.data.reverse [])

/-- Removal of trailing separators (first loop of `filepath.Base`), on the reversed path. -/
def dropSeparators : List Char → List Char
  | [] => []
  | c :: rev => if c = '/' then dropSeparators rev else c :: rev

/-- Go `filepath.Base(path)`: the last element of the path, `.` for the empty path and `/` for a
path of separators only. -/
def Base (path : String) : String :=
  if path = "" then "."
  else
    let stripped := dropSeparators path.data.reverse
    let last := (stripped.takeWhile (fun c => c ≠ '/')).reverse
    if last = [] then "/" else String.mk last

/-- Go `inputFile[:len(inputFile)-len(filepath.Ext(inputFile))]`. -/
def withoutExt (inputFile : String) : String :=
  String.mk (inputFile.data.take (inputFile.data.length - (Ext inputFile).data.length))

/-- Elements of a path between separators; `cur` holds the element being read. -/
def splitPath : List Char → List Char → List String
  | [], cur => [String.mk cur]
  | c :: cs, cur => if c = '/' then String.mk cur :: splitPath cs [] else splitPath cs (cur ++ [c])

/-- Element loop of `filepath.Clean`: empty elements and `.` are skipped, `..` removes the
element written last, or is itself written when a relative path has nothing left to remove;
`out` is the list of elements written so far, last first. -/
def Clean.elements (rooted : Bool) : List String → List String → List String
  | [], out => out
  | e :: es, out =>
    if e = "" ∨ e = "." then Clean.elements rooted es out
    else if e = ".." then
      match out with
      | top :: rest =>
        if top = ".." then Clean.elements rooted es (e :: out) else Clean.elements rooted es rest
      | [] => if rooted then Clean.elements rooted es [] else Clean.elements rooted es [e]
    else Clean.elements rooted es (e :: out)

/-- Go `filepath.Clean(path)`: the shortest path naming the same file by purely lexical
processing. -/
def Clean (path : String) : String :=
  if path = "" then "."
  else
    let rooted := path.data.head? = some '/'
    let body := stringsJoin (Clean.elements rooted (splitPath path.data []) []).reverse "/"
    if rooted then "/" ++ body else if body = "" then "." else body

/-- Scan of `filepath.Dir` on the reversed path: everything up to and including the last
separator is kept. -/
def Dir.keep : List Char → List Char
  | [] => []
  | c :: rev => if c = '/' then c :: rev else Dir.keep rev

/-- Go `filepath.Dir(path)`: all but the last element of the path, cleaned. -/
def Dir (path : String) : String := Clean (String.mk (Dir.keep path.data.reverse).reverse)

/-- Go `filepath.Join(elem...)`: leading empty elements are ignored, the rest is joined by the
separator and cleaned; no element gives the empty string. -/
def Join (elem : List String) : String :=
  match elem.dropWhile (fun e => e = "") with
  | [] => ""
  | es => Clean (stringsJoin es "/")

/-! ## `pkg/types/types.go`: API constants, responses and progress -/

/-- Go `types.APIReqUpload`. -/
def APIReqUpload : String := "/resource/create"

/-- Go `types.APICommitUpload`. -/
def APICommitUpload : String := "/resource/create/complete"

/-- Go `types.APICreateTask`. -/
def APICreateTask : String := "/task"

/-- Go `types.APIQueryResult`. -/
def APIQueryResult : String := "/task/result"

/-- Go `types.SupportedInputFormats`. -/
def SupportedInputFormats : List String := ["flac", "aac", "m4a", "mp3", "wav"]

/-- Go `types.StateStop`: queued. -/
def StateStop : Int := 0

/-- Go `types.StateRunning`. -/
def StateRunning : Int := 1

/-- Go `types.StateError`. -/
def StateError : Int := 3

/-- Go `types.StateComplete`. -/
def StateComplete : Int := 4

/-- Go `types.ResourceCreateResponse`; `TypeCode` is the member `Type`. -/
structure ResourceCreateResponse where
  ResourceID : String
  Title : String
  TypeCode : Int
  InBossKey : String
  Size : Int
  UploadURLs : List String
  UploadID : String
  PerSize : Int
  deriving DecidableEq, Repr

/-- Go `types.ResourceCompleteResponse`. -/
structure ResourceCompleteResponse where
  ResourceID : String
  DownloadURL : String
  deriving DecidableEq, Repr

/-- Go `types.TaskCreateResponse`. -/
structure TaskCreateResponse where
  Resource : String
  Result : String
  TaskID : String
  deriving DecidableEq, Repr

/-- Go `types.TaskResultResponse`. -/
structure TaskResultResponse where
  TaskID : String
  Result : String
  Remark : String
  State : Int
  deriving DecidableEq, Repr

/-- The untyped `data` member of a response envelope (`interface{}`). The client only ever
re-encodes it and decodes it into one of four structures (`json.Marshal` followed by
`json.Unmarshal`), so a value is given by the outcome of each of these decodings. -/
structure Data where
  asResourceCreate : Except GoError ResourceCreateResponse
  asResourceComplete : Except GoError ResourceCompleteResponse
  asTaskCreate : Except GoError TaskCreateResponse
  asTaskResult : Except GoError TaskResultResponse

/-- Go `types.ASRResponse`: the response envelope. -/
structure ASRResponse where
  Code : Int
  Message : String
  Data : Data

/-- Go `types.ProgressStage`. -/
inductive ProgressStage where
  | StageInit
  | StageUpload
  | StageProcess
  | StageComplete
  deriving DecidableEq, Repr

/-- Go `types.ProgressInfo`. -/
structure ProgressInfo where
  Stage : ProgressStage
  Total : Int
  Current : Int
  Description : String
  deriving DecidableEq, Repr

/-! ## HTTP exchange, environment and session -/

/-- Body of an HTTP request: none, form values (`url.Values`), raw bytes, or a JSON object of
string members. -/
inductive Body where
  | none
  | form (values : List (String × String))
  | bytes (data : List Byte)
  | json (members : List (String × String))
  deriving DecidableEq, Repr

/-- An HTTP request as the client builds it. -/
structure Request where
  method : String
  url : String
  contentType : String
  body : Body
  deriving DecidableEq, Repr

/-- What the client reads of an HTTP response: the `Etag` header (empty when absent) and the
outcome of decoding the body as a response envelope. -/
structure Response where
  etag : String
  body : Except GoError ASRResponse

/-- Outcome of running the external transcoder: the error pipe could not be created, the
command failed, or it ended normally with the bytes written to its standard output. -/
inductive Transcode where
  | pipeFailed (e : GoError)
  | runFailed (e : GoError)
  | finished (stdout : List Byte)

/-- Everything outside the client: the remote service, the cancellation context, the file
system, the transcoder and the library functions whose tables are not part of the
repository. -/
structure Env where
  /-- Go `types.GetAPIBaseURL()`. -/
  apiBaseURL : String
  /-- Error of `http.NewRequestWithContext` for a URL, none when the request can be built. -/
  newRequestError : String → Option GoError
  /-- Go `client.Do(req)`: the answer to a request, given the requests issued before it. -/
  roundTrip : List Request → Request → Except GoError Response
  /-- Whether `ctx.Done()` is closed when the client has issued the given number of requests. -/
  ctxDone : Nat → Bool
  /-- Go `os.ReadFile(path)`. -/
  readFile : String → Except GoError (List Byte)
  /-- The run of `ffmpeg` on an input path with the fixed arguments of `processMedia`. -/
  ffmpeg : String → Transcode
  /-- Case table of the `unicode` package for runes outside ASCII. -/
  lowerTable : Char → Char
  /-- Go `json.Unmarshal([]byte(s), &asrResult)`. -/
  unmarshalResult : String → Except GoError ASRResult
  /-- Go `json.MarshalIndent(result, "", "  ")`. -/
  marshalIndent : ASRResult → Except GoError String
  /-- Go `os.MkdirAll(path, 0755)`: its error, none on success. -/
  mkdirAll : String → Option GoError
  /-- Whether `os.Stat(path)` succeeds and reports a directory. -/
  isDir : String → Bool
  /-- Go `os.WriteFile(path, data, 0644)`: its error, none on success. -/
  writeFile : String → String → Option GoError

/-- The session `BcutASR`. The HTTP client and the context live in the environment;
`onProgress` tells whether a progress callback is installed. -/
structure BcutASR where
  soundName : String
  soundData : List Byte
  soundFormat : String
  inBossKey : String
  resourceID : String
  uploadID : String
  uploadURLs : List String
  perSize : Int
  etags : List String
  downloadURL : String
  taskID : String
  onProgress : Bool
  deriving DecidableEq, Repr

/-- A run of the client: the session together with what the run has done so far, in order:
requests issued, progress reports delivered to the callback, embedded result texts handed to
the JSON decoder, directories created and files written. -/
structure Run where
  b : BcutASR
  sent : List Request
  reports : List ProgressInfo
  parses : List String
  madeDirs : List String
  written : List (String × String)
  deriving DecidableEq, Repr

/-! ## `pkg/asr/asr.go`: the session operations -/

/-- Go `New(ctx)`: the fresh session. -/
def New : BcutASR :=
  { soundName := "", soundData := [], soundFormat := "", inBossKey := "", resourceID := "",
    uploadID := "", uploadURLs := [], perSize := 0, etags := [], downloadURL := "", taskID := "",
    onProgress := false }

/-- Go `(*BcutASR).WithProgress(callback)`; the argument tells whether the callback is non-nil. -/
def WithProgress (b : BcutASR) (callback : Bool) : BcutASR := { b with onProgress := callback }

/-- A run that starts from a session and has done nothing yet. -/
def Run.start (b : BcutASR) : Run := { b := b, sent := [], reports := [], parses := [], madeDirs := [], written := [] }

/-- The run after `client.Do(req)` has issued a request. -/
def Run.send (s : Run) (req : Request) : Run := { s with sent := s.sent ++ [req] }

/-- Go `(*BcutASR).reportProgress`: the callback, when installed, receives the report. -/
def reportProgress (s : Run) (stage : ProgressStage) (current : Int) (description : String) : Run :=
  if s.b.onProgress then
    { s with reports := s.reports ++ [{ Stage := stage, Total := 100, Current := current,
                                         Description := description }] }
  else s

/-- The API error of a response envelope with a nonzero code:
`fmt.Errorf("API error: %d - %s", result.Code, result.Message)`. -/
def apiError (result : ASRResponse) : GoError :=
  .text ("API error: " ++ fmtD result.Code ++ " - " ++ result.Message)

/-- The request of the first step of `Upload`: the form posted to the create-resource endpoint. -/
def createResourceRequest (env : Env) (b : BcutASR) : Request :=
  { method := "POST", url := env.apiBaseURL ++ APIReqUpload,
    contentType := "application/x-www-form-urlencoded",
    body := .form [("type", "2"), ("name", b.soundName), ("size", fmtD (b.soundData.length : Int)),
                   ("resource_file_type", b.soundFormat), ("model_id", "7")] }

/-- The request of `uploadParts` for one part: a `PUT` of the slice to the part's URL. -/
def partRequest (url : String) (part : List Byte) : Request :=
  { method := "PUT", url := url, contentType := "", body := .bytes part }

/-- The request of `commitUpload`: the form posted to the completion endpoint. -/
def commitRequest (env : Env) (b : BcutASR) : Request :=
  { method := "POST", url := env.apiBaseURL ++ APICommitUpload,
    contentType := "application/x-www-form-urlencoded",
    body := .form [("in_boss_key", b.inBossKey), ("resource_id", b.resourceID),
                   ("etags", stringsJoin b.etags ","), ("upload_id", b.uploadID), ("model_id", "7")] }

/-- The request of `CreateTask`: the JSON object posted to the task endpoint. -/
def createTaskRequest (env : Env) (b : BcutASR) : Request :=
  { method := "POST", url := env.apiBaseURL ++ APICreateTask, contentType := "application/json",
    body := .json [("model_id", "7"), ("resource", b.downloadURL)] }

/-- The request of `QueryResult`: a `GET` of the result endpoint for the session's task. -/
def queryRequest (env : Env) (b : BcutASR) : Request :=
  { method := "GET", url := env.apiBaseURL ++ APIQueryResult ++ "?model_id=7&task_id=" ++ b.taskID,
    contentType := "", body := .none }

/-- The slice bounds `start` and `end` that `uploadParts` computes for part `i`. -/
def partBounds (b : BcutASR) (i : Nat) : Int × Int :=
  let start := wrapInt ((i : Int) * b.perSize)
  let stop := wrapInt (start + b.perSize)
  (start, if stop > (b.soundData.length : Int) then (b.soundData.length : Int) else stop)

/-- The loop `for _, format := range types.SupportedInputFormats` of `processMedia`: the first
format whose dotted form equals the extension. -/
def processMedia.findFormat (ext : String) : List String → Option String
  | [] => none
  | format :: rest => if "." ++ format = ext then some format else processMedia.findFormat ext rest

/-- Go `(*BcutASR).processMedia(filePath)`. The reports of the goroutine that watches the
transcoder's error stream are concurrent with the run and are not part of the model. -/
def processMedia (env : Env) (s : Run) (filePath : String) : Outcome Unit × Run :=
  let ext := ToLower env.lowerTable (Ext filePath)
  match processMedia.findFormat ext SupportedInputFormats with
  | some format =>
    let s1 := if s.b.onProgress then reportProgress s .StageInit 0 "读取音频文件..." else s
    match env.readFile filePath with
    | .error e => (.err e, s1)
    | .ok data =>
      (.ok (), { s1 with b := { s1.b with soundData := data, soundName := Base filePath,
                                           soundFormat := format } })
  | none =>
    let s1 := reportProgress s .StageInit 20 "准备提取音频..."
    match env.ffmpeg filePath with
    | .pipeFailed e => (.err (.wrap "创建stderr管道失败: " e), s1)
    | .runFailed e => (.err (.wrap "ffmpeg执行失败: " e), reportProgress s1 .StageInit 40 "开始提取音频...")
    | .finished stdout =>
      let s2 := reportProgress s1 .StageInit 40 "开始提取音频..."
      let s3 := { s2 with b := { s2.b with soundData := stdout } }
      if stdout.length = 0 then (.err (.text "未提取到音频数据"), s3)
      else
        let s4 := { s3 with b := { s3.b with
          soundName := TrimSuffix (Base filePath) (Ext filePath) ++ ".aac", soundFormat := "aac" } }
        (.ok (), reportProgress s4 .StageInit 100 "音频提取完成")

/-- Go `(*BcutASR).SetData(filePath)`. -/
def SetData (env : Env) (s : Run) (filePath : String) : Outcome Unit × Run :=
  let s1 := if s.b.onProgress then reportProgress s .StageInit 0 "开始加载文件..." else s
  processMedia env s1 filePath

/-- The loop `for i, url := range b.uploadURLs` of `uploadParts`: `i` is the index of the
first URL of the list still to be served. -/
def uploadParts.loop (env : Env) (totalParts : Nat) : List String → Nat → Run → Outcome Unit × Run
  | [], _, s => (.ok (), s)
  | url :: rest, i, s =>
    if env.ctxDone s.sent.length then (.err .canceled, s)
    else if totalParts = 0 then (.panic "integer divide by zero", s)
    else
      let progress := (wrapInt (wrapInt ((i : Int) + 1) * 90)).tdiv (totalParts : Int)
      let s1 := reportProgress s .StageUpload progress
        ("正在上传分片 " ++ fmtD (wrapInt ((i : Int) + 1)) ++ "/" ++ fmtD (totalParts : Int))
      match goSlice s.b.soundData (partBounds s.b i).1 (partBounds s.b i).2 with
      | none => (.panic "slice bounds out of range", s1)
      | some part =>
        match env.newRequestError url with
        | some e => (.err e, s1)
        | none =>
          let req := partRequest url part
          let s2 := s1.send req
          match env.roundTrip s1.sent req with
          | .error e => (.err e, s2)
          | .ok resp =>
            if resp.etag = "" then
              (.err (.text ("no etag in response for part " ++ fmtD (i : Int))), s2)
            else
              uploadParts.loop env totalParts rest (i + 1)
                { s2 with b := { s2.b with etags := s2.b.etags ++ [resp.etag] } }

/-- Go `(*BcutASR).uploadParts()`. -/
def uploadParts (env : Env) (s : Run) : Outcome Unit × Run :=
  match uploadParts.loop env s.b.uploadURLs.length s.b.uploadURLs 0 s with
  | (.ok (), s1) => (.ok (), reportProgress s1 .StageUpload 100 "上传完成")
  | r => r

/-- Go `(*BcutASR).commitUpload()`. -/
def commitUpload (env : Env) (s : Run) : Outcome Unit × Run :=
  let req := commitRequest env s.b
  match env.newRequestError req.url with
  | some e => (.err (.wrap "create request failed: " e), s)
  | none =>
    let s1 := s.send req
    match env.roundTrip s.sent req with
    | .error e => (.err e, s1)
    | .ok resp =>
      match resp.body with
      | .error e => (.err e, s1)
      | .ok result =>
        if result.Code ≠ 0 then (.err (apiError result), s1)
        else
          match result.Data.asResourceComplete with
          | .error e => (.err e, s1)
          | .ok completeResp =>
            (.ok (), { s1 with b := { s1.b with downloadURL := completeResp.DownloadURL } })

/-- The assignments of `Upload` that store the upload plan in the session. -/
def BcutASR.withPlan (b : BcutASR) (createResp : ResourceCreateResponse) : BcutASR :=
  { b with
    inBossKey := createResp.InBossKey, resourceID := createResp.ResourceID,
    uploadID := createResp.UploadID, uploadURLs := createResp.UploadURLs,
    perSize := createResp.PerSize }

/-- Go `(*BcutASR).Upload()`: request the upload plan, upload the parts, commit. -/
def Upload (env : Env) (s : Run) : Outcome Unit × Run :=
  let req := createResourceRequest env s.b
  match env.newRequestError req.url with
  | some e => (.err (.wrap "create request failed: " e), s)
  | none =>
    let s1 := s.send req
    match env.roundTrip s.sent req with
    | .error e => (.err (.wrap "request upload failed: " e), s1)
    | .ok resp =>
      match resp.body with
      | .error e => (.err (.wrap "decode response failed: " e), s1)
      | .ok result =>
        if result.Code ≠ 0 then (.err (apiError result), s1)
        else
          match result.Data.asResourceCreate with
          | .error e => (.err (.wrap "parse create response failed: " e), s1)
          | .ok createResp =>
            let s2 := { s1 with b := s1.b.withPlan createResp }
            match uploadParts env s2 with
            | (.err e, s3) => (.err (.wrap "upload parts failed: " e), s3)
            | (.panic msg, s3) => (.panic msg, s3)
            | (.ok (), s3) =>
              match commitUpload env s3 with
              | (.err e, s4) => (.err (.wrap "commit upload failed: " e), s4)
              | (.panic msg, s4) => (.panic msg, s4)
              | (.ok (), s4) => (.ok (), s4)

/-- Go `(*BcutASR).CreateTask()`. -/
def CreateTask (env : Env) (s : Run) : Outcome String × Run :=
  let req := createTaskRequest env s.b
  match env.newRequestError req.url with
  | some e => (.err (.wrap "create request failed: " e), s)
  | none =>
    let s1 := s.send req
    match env.roundTrip s.sent req with
    | .error e => (.err e, s1)
    | .ok resp =>
      match resp.body with
      | .error e => (.err e, s1)
      | .ok result =>
        if result.Code ≠ 0 then (.err (apiError result), s1)
        else
          match result.Data.asTaskCreate with
          | .error e => (.err e, s1)
          | .ok taskResp =>
            (.ok taskResp.TaskID, { s1 with b := { s1.b with taskID := taskResp.TaskID } })

/-- The `switch taskResult.State` of `QueryResult`: the error it returns, if any, and the run
after its progress report. -/
def QueryResult.switchState (taskResult : TaskResultResponse) (s : Run) : Option GoError × Run :=
  if taskResult.State = StateStop then (none, reportProgress s .StageProcess 50 "排队中...")
  else if taskResult.State = StateRunning then (none, reportProgress s .StageProcess 75 "正在识别...")
  else if taskResult.State = StateError then (some (.text ("task failed: " ++ taskResult.Remark)), s)
  else if taskResult.State = StateComplete then (none, reportProgress s .StageComplete 100 "识别完成")
  else (none, s)

/-- Go `(*BcutASR).QueryResult()`: one poll; `none` is the nil result. -/
def QueryResult (env : Env) (s : Run) : Outcome (Option ASRResult) × Run :=
  let req := queryRequest env s.b
  match env.newRequestError req.url with
  | some e => (.err (.wrap "create request failed: " e), s)
  | none =>
    let s1 := s.send req
    match env.roundTrip s.sent req with
    | .error e => (.err e, s1)
    | .ok resp =>
      match resp.body with
      | .error e => (.err e, s1)
      | .ok result =>
        if result.Code ≠ 0 then (.err (apiError result), s1)
        else
          match result.Data.asTaskResult with
          | .error e => (.err e, s1)
          | .ok taskResult =>
            match QueryResult.switchState taskResult s1 with
            | (some e, s2) => (.err e, s2)
            | (none, s2) =>
              if taskResult.State ≠ StateComplete then (.ok none, s2)
              else
                let s3 := { s2 with parses := s2.parses ++ [taskResult.Result] }
                match env.unmarshalResult taskResult.Result with
                | .error e => (.err e, s3)
                | .ok asrResult => (.ok (some asrResult), s3)

/-! ## `ConvertToSubtitle`

Real time is not modelled: the ticker is a source of ticks, and at every `select` of the polling
loop the environment decides whether the context is done before the next tick. The option
`Context` is the context of the environment, so it is not a member of `ConvertOptions` here.
Floating point arithmetic is not modelled either: the option `Interval` is given by the two
things `ConvertToSubtitle` computes from it. -/

/-- A Go `float64` number of seconds, as `ConvertToSubtitle` looks at it: `nonPositive` is the
outcome of the comparison `x <= 0`, and `duration` is the `time.Duration` (an `int64` count of
nanoseconds) that `time.Duration(x * float64(time.Second))` converts it to. For `5.0` that is
`false` and `5000000000`; for `1e-10` it is `false` and `0`; for NaN the comparison is `false`
and the duration is what the platform converts NaN to. -/
structure Seconds where
  nonPositive : Bool
  duration : Int
  deriving DecidableEq, Repr

/-- The `float64` constant `30.0`. -/
def thirtySeconds : Seconds := { nonPositive := false, duration := 30000000000 }

/-- The `float64` constant `5.0`, the default of the flag `-t` of the command. -/
def fiveSeconds : Seconds := { nonPositive := false, duration := 5000000000 }

/-- Go `ConvertOptions` (without `Context`); `Progress` tells whether a callback is given. -/
structure ConvertOptions where
  Format : String
  Interval : Seconds
  Progress : Bool
  OutputPath : String
  deriving DecidableEq, Repr

/-- Go `DefaultConvertOptions`. -/
def DefaultConvertOptions : ConvertOptions :=
  { Format := "srt", Interval := thirtySeconds, Progress := false, OutputPath := "" }

/-- Go `time.NewTicker(d)`: it panics when `d` is not positive; otherwise there is a ticker. -/
def NewTicker (d : Int) : Outcome Unit :=
  if d ≤ 0 then .panic "non-positive interval for NewTicker" else .ok ()

/-- The polling loop `for { select { ... } }` of `ConvertToSubtitle`, up to the point where a
non-nil result is at hand: every round waits for the context or for a tick, and a tick makes one
query. `fuel` bounds the number of rounds; `none` means that the loop is still running after
that many rounds. -/
def pollLoop (env : Env) : Nat → Run → Option (Outcome ASRResult × Run)
  | 0, _ => none
  | fuel + 1, s =>
    if env.ctxDone s.sent.length then some (.err .canceled, s)
    else
      match QueryResult env s with
      | (.err e, s1) => some (.err e, s1)
      | (.panic msg, s1) => some (.panic msg, s1)
      | (.ok none, s1) => pollLoop env fuel s1
      | (.ok (some result), s1) => some (.ok result, s1)

/-- Choice of the output file in `ConvertToSubtitle`, with the directory creation that comes
with an explicit output path. -/
def resolveOutputFile (env : Env) (options : ConvertOptions) (inputFile : String) (s : Run) :
    Except GoError String × Run :=
  if options.OutputPath ≠ "" then
    match env.mkdirAll (Dir options.OutputPath) with
    | some e => (.error (.wrap "创建输出目录失败: " e), s)
    | none =>
      let s1 := { s with madeDirs := s.madeDirs ++ [Dir options.OutputPath] }
      if env.isDir options.OutputPath then
        (.ok (Join [options.OutputPath, Base (withoutExt inputFile) ++ "." ++ options.Format]), s1)
      else (.ok options.OutputPath, s1)
  else (.ok (Join [Dir inputFile, Base (withoutExt inputFile) ++ "." ++ options.Format]), s)

/-- The `switch options.Format` of `ConvertToSubtitle`: the text to write. -/
def renderOutput (env : Env) (options : ConvertOptions) (result : ASRResult) : Except GoError String :=
  if options.Format = "srt" then .ok (ToSRT result)
  else if options.Format = "lrc" then .ok (ToLRC result)
  else if options.Format = "txt" then .ok (ToTXT result)
  else if options.Format = "json" then
    match env.marshalIndent result with
    | .error e => .error (.wrap "JSON序列化失败: " e)
    | .ok text => .ok text
  else .error (.text ("不支持的输出格式: " ++ options.Format))

/-- The part of `ConvertToSubtitle` that follows a non-nil result: choose the output file,
render, write. -/
def writeOutput (env : Env) (options : ConvertOptions) (inputFile : String) (result : ASRResult)
    (s : Run) : Outcome Unit × Run :=
  match resolveOutputFile env options inputFile s with
  | (.error e, s1) => (.err e, s1)
  | (.ok outputFile, s1) =>
    match renderOutput env options result with
    | .error e => (.err e, s1)
    | .ok output =>
      match env.writeFile outputFile output with
      | some e => (.err e, s1)
      | none => (.ok (), { s1 with written := s1.written ++ [(outputFile, output)] })

/-- The direct call of `options.Progress` after the task has been created. -/
def reportTaskCreated (options : ConvertOptions) (taskID : String) (s : Run) : Run :=
  if options.Progress then
    { s with reports := s.reports ++ [{ Stage := .StageProcess, Total := 100, Current := 25,
                                         Description := "任务已创建: " ++ taskID }] }
  else s

/-- Go `ConvertToSubtitle(inputFile, opts...)`, with `fuel` rounds of the polling loop; `none`
means that the loop is still polling after that many rounds. The ticker is made after the task
has been created and reported, and the loop is entered only with a ticker. -/
def ConvertToSubtitle (env : Env) (inputFile : String) (opts : List ConvertOptions) (fuel : Nat) :
    Option (Outcome Unit × Run) :=
  let options := match opts with
    | [] => DefaultConvertOptions
    | first :: _ => first
  let options := if options.Format = "" then { options with Format := "srt" } else options
  let options :=
    if options.Interval.nonPositive then { options with Interval := thirtySeconds } else options
  let bcutASR := Run.start (WithProgress New options.Progress)
  match SetData env bcutASR inputFile with
  | (.err e, s1) => some (.err e, s1)
  | (.panic msg, s1) => some (.panic msg, s1)
  | (.ok (), s1) =>
    match Upload env s1 with
    | (.err e, s2) => some (.err e, s2)
    | (.panic msg, s2) => some (.panic msg, s2)
    | (.ok (), s2) =>
      match CreateTask env s2 with
      | (.err e, s3) => some (.err e, s3)
      | (.panic msg, s3) => some (.panic msg, s3)
      | (.ok taskID, s3) =>
        let s4 := reportTaskCreated options taskID s3
        match NewTicker options.Interval.duration with
        | .err e => some (.err e, s4)
        | .panic msg => some (.panic msg, s4)
        | .ok () =>
          match pollLoop env fuel s4 with
          | none => none
          | some (.err e, s5) => some (.err e, s5)
          | some (.panic msg, s5) => some (.panic msg, s5)
          | some (.ok result, s5) => some (writeOutput env options inputFile result s5)

/-! ## A scripted environment

The test servers of `asr_test.go`, put into one environment: it is used to run the operations
on concrete inputs. -/

/-- The embedded result text served by `TestBcutASR_QueryResult`, in compact spelling. -/
def testResultText : String :=
  "\x7b\"utterances\": [\x7b\"start_time\": 0, \"end_time\": 1000, \"transcript\": \"test transcript\", \"words\": []\x7d], \"version\": \"1.0\"\x7d"

/-- The result that `testResultText` decodes to. -/
def testResult : ASRResult :=
  { Utterances := [{ StartTime := 0, EndTime := 1000, Transcript := "test transcript", Words := [] }],
    Version := "1.0" }

/-- The data `\x7b\x7d`: every decoding succeeds and leaves all members at their zero value. -/
def emptyData : Data :=
  { asResourceCreate := .ok ⟨"", "", 0, "", 0, [], "", 0⟩,
    asResourceComplete := .ok ⟨"", ""⟩,
    asTaskCreate := .ok ⟨"", "", ""⟩,
    asTaskResult := .ok ⟨"", "", "", 0⟩ }

/-- The upload plan served by `TestBcutASR_Upload`. -/
def testPlan : ResourceCreateResponse :=
  { ResourceID := "test-resource", Title := "", TypeCode := 0, InBossKey := "test-key", Size := 0,
    UploadURLs := ["http://test.com/upload"], UploadID := "test-upload", PerSize := 1024 }

/-- The bytes of the text `test data`, the content of the file of `TestBcutASR_SetData`. -/
def testData : List Byte := [116, 101, 115, 116, 32, 100, 97, 116, 97]

/-- Number of requests of a history that use the given method. -/
def countMethod (method : String) (history : List Request) : Nat :=
  (history.filter (fun r => r.method = method)).length

/-- A response without `Etag` header whose body is the envelope with the given code, message
and data. -/
def envelope (code : Int) (message : String) (data : Data) : Except GoError Response :=
  .ok { etag := "", body := .ok { Code := code, Message := message, Data := data } }

/-- A scripted service in the manner of the test servers: it serves the upload plan `plan`,
answers the `n`-th `PUT` with the tag `etag-n`, reports the task as running on the first
`running` queries and as complete, with `testResultText`, afterwards. The endpoint whose path is
`failing` answers with code 1001 and the message `denied`. The context is never done, the file
`/tmp/test.mp3` holds `testData`, the transcoder turns `/tmp/clip.MOV` into four bytes and fails
on every other input, and the file system accepts every write. -/
def scriptedEnv (plan : ResourceCreateResponse) (failing : String) (running : Nat) : Env :=
  { apiBaseURL := "http://127.0.0.1:8080"
    newRequestError := fun _ => none
    roundTrip := fun history req =>
      if req.method = "PUT" then
        .ok { etag := "etag-" ++ decimal (countMethod "PUT" history + 1), body := .error (.text "EOF") }
      else if req.url = "http://127.0.0.1:8080" ++ failing then envelope 1001 "denied" emptyData
      else if req.url = "http://127.0.0.1:8080" ++ APIReqUpload then
        envelope 0 "" { emptyData with asResourceCreate := .ok plan }
      else if req.url = "http://127.0.0.1:8080" ++ APICommitUpload then
        envelope 0 "" { emptyData with
          asResourceComplete := .ok ⟨"test-resource", "http://test.com/download"⟩ }
      else if req.url = "http://127.0.0.1:8080" ++ APICreateTask then
        envelope 0 "" { emptyData with asTaskCreate := .ok ⟨"", "", "test-task"⟩ }
      else if countMethod "GET" history < running then
        envelope 0 "" { emptyData with asTaskResult := .ok ⟨"test-task", "", "", StateRunning⟩ }
      else
        envelope 0 "" { emptyData with
          asTaskResult := .ok ⟨"test-task", testResultText, "", StateComplete⟩ }
    ctxDone := fun _ => false
    readFile := fun path =>
      if path = "/tmp/test.mp3" then .ok testData else .error (.text "open: no such file or directory")
    ffmpeg := fun path =>
      if path = "/tmp/clip.MOV" then .finished [255, 241, 80, 128] else .runFailed (.text "exit status 1")
    lowerTable := fun c => c
    unmarshalResult := fun text =>
      if text = testResultText then .ok testResult else .error (.text "unexpected end of JSON input")
    marshalIndent := fun _ => .ok "\x7b\x7d"
    mkdirAll := fun _ => none
    isDir := fun _ => false
    writeFile := fun _ _ => none }

/-! ## Reference descriptions the upload is compared with -/

/-- The slice of the payload between the bounds that `uploadParts` computes for part `i`. -/
def partSlice (b : BcutASR) (i : Nat) : List Byte :=
  (b.soundData.take (partBounds b i).2.toNat).drop (partBounds b i).1.toNat

/-- The part requests for a list of URLs, the first of which belongs to part `i`: one `PUT` per
URL, in order, with the slice of the part as body. -/
def plannedParts (b : BcutASR) : Nat → List String → List Request
  | _, [] => []
  | i, url :: rest => partRequest url (partSlice b i) :: plannedParts b (i + 1) rest

/-- The `Etag` header of the answer to a request issued after the given history; none when the
exchange fails. -/
def etagOf (env : Env) (history : List Request) (req : Request) : Option String :=
  match env.roundTrip history req with
  | .ok resp => some resp.etag
  | .error _ => none

/-- The `Etag` headers of the answers to a list of requests issued one after the other, in
request order (empty for a failed exchange). -/
def collectTags (env : Env) : List Request → List Request → List String
  | _, [] => []
  | history, req :: rest => (etagOf env history req).getD "" :: collectTags env (history ++ [req]) rest

/-- The `i`-th chunk of a payload cut into pieces of `p` bytes: the bytes from `i * p` up to
`min ((i + 1) * p) (length)`. -/
def chunk (p : Nat) (data : List Byte) (i : Nat) : List Byte := (data.drop (i * p)).take p

/-- The body of a request when it is a byte body, the empty list otherwise. -/
def Request.bytes (req : Request) : List Byte :=
  match req.body with
  | .bytes data => data
  | _ => []

/-- The run after `k` polls that all found the task running: each has issued the query request
and reported stage process at 75. -/
def afterRunning (env : Env) : Run → Nat → Run
  | s, 0 => s
  | s, k + 1 =>
    afterRunning env (reportProgress (s.send (queryRequest env s.b)) .StageProcess 75 "正在识别...") k

/-! ## `cmd/bcut-asr/main.go`

The command is run with the values of its flags `-i`, `-o`, `-f` and `-t` (default
`fiveSeconds`); the rendering of the progress bar is not part of the model. -/

/-- Go `getOutputPath(inputFile, outputFile, format)`: the path the command prints. -/
def getOutputPath (env : Env) (inputFile outputFile format : String) : String :=
  if outputFile ≠ "" then
    if env.isDir outputFile then
      Join [outputFile, Base (withoutExt inputFile) ++ "." ++ format]
    else outputFile
  else Join [Dir inputFile, Base (withoutExt inputFile) ++ "." ++ format]

/-- How a run of the command ends: with the usage message (no input file), with the message of a
failed conversion, with a run-time panic, or with the message that names the output path. -/
inductive CliEnd where
  | usage
  | failed (e : GoError) (run : Run)
  | crashed (msg : String) (run : Run)
  | done (printedPath : String) (run : Run)
  deriving DecidableEq, Repr

/-- The exit status of a run of the command. -/
def CliEnd.status : CliEnd → Nat
  | .usage => 1
  | .failed _ _ => 1
  | .crashed _ _ => 2
  | .done _ _ => 0

/-- The last message a run of the command prints. -/
def CliEnd.message : CliEnd → String
  | .usage => "请指定输入文件路径\n"
  | .failed e _ => "\n转换失败: " ++ e.Error ++ "\n"
  | .crashed msg _ => "panic: " ++ msg ++ "\n"
  | .done printedPath _ => "\n转换完成！输出文件: " ++ printedPath ++ "\n"

/-- Go `main()`, for the flag values `inputFile`, `outputFile`, `format` and `interval`, with
`fuel` rounds of the polling loop: the conversion gets the format in lower case, the interval
and a progress callback, the printed path is computed from the format as given. -/
def main (env : Env) (inputFile outputFile format : String) (interval : Seconds) (fuel : Nat) :
    Option CliEnd :=
  if inputFile = "" then some .usage
  else
    let options : ConvertOptions :=
      { Format := ToLower env.lowerTable format, Interval := interval, Progress := true,
        OutputPath := outputFile }
    match ConvertToSubtitle env inputFile [options] fuel with
    | none => none
    | some (.err e, run) => some (.failed e run)
    | some (.panic msg, run) => some (.crashed msg run)
    | some (.ok (), run) => some (.done (getOutputPath env inputFile outputFile format) run)

/-! ## Further reference descriptions -/

/-- The scripted environment with a context that is done once `after` requests have been
issued. -/
def cancellingEnv (after : Nat) : Env :=
  { scriptedEnv testPlan "" 0 with ctxDone := fun n => decide (after ≤ n) }

/-- The progress report of `uploadParts` for part `i` of `totalParts`. -/
def partReport (totalParts i : Nat) : ProgressInfo :=
  { Stage := .StageUpload, Total := 100,
    Current := (wrapInt (wrapInt ((i : Int) + 1) * 90)).tdiv (totalParts : Int),
    Description := "正在上传分片 " ++ fmtD (wrapInt ((i : Int) + 1)) ++ "/" ++ fmtD (totalParts : Int) }

/-- The bounds computed for part `i` are in range for the slice expression:
`0 <= start <= end <= len(soundData)`. -/
def sliceSafe (b : BcutASR) (i : Nat) : Prop :=
  0 ≤ (partBounds b i).1 ∧ (partBounds b i).1 ≤ (partBounds b i).2 ∧
    (partBounds b i).2 ≤ (b.soundData.length : Int)

instance (b : BcutASR) (i : Nat) : Decidable (sliceSafe b i) := by
  unfold sliceSafe
  infer_instance

/-- One side of the range that `formatSRTTimestamp` renders: `%02d:%02d:%02d,%03d` of the four
quotients of a millisecond count. -/
def formatSRTSide (ms : Int) : String :=
  fmtD0 2 (ms.tdiv 3600000) ++ ":" ++ fmtD0 2 ((ms.tdiv 60000).tmod 60) ++ ":" ++
    fmtD0 2 ((ms.tdiv 1000).tmod 60) ++ "," ++ fmtD0 3 (ms.tmod 1000)

/-- The number written by a list of decimal digits, most significant first. -/
def readDecimal (cs : List Char) : Nat := cs.foldl (fun acc c => 10 * acc + (c.toNat - 48)) 0

/-- Reading of one decimal field: the number written by the leading digits, and the text after
the character that follows them. -/
def readField (cs : List Char) : Nat × List Char :=
  (readDecimal (cs.takeWhile Char.isDigit), (cs.dropWhile Char.isDigit).drop 1)

/-- Reading of the four decimal fields hours, minutes, seconds, milliseconds of a rendered
side. -/
def readSide (s : String) : Nat × Nat × Nat × Nat :=
  let h := readField s.data
  let m := readField h.2
  let sec := readField m.2
  let f := readField sec.2
  (h.1, m.1, sec.1, f.1)

/-- The scripted environment with a transcoder that also reads the network input
`http://media.example/clip.mov/` and turns it into four bytes. -/
def streamEnv : Env :=
  { scriptedEnv testPlan "" 0 with
    ffmpeg := fun path =>
      if path = "http://media.example/clip.mov/" ∨ path = "/tmp/clip.MOV" then
        .finished [255, 241, 80, 128]
      else .runFailed (.text "exit status 1") }

/-! ## Lemmas on strings and on the `fmt` verbs -/

theorem join_cons (a : String) (l : List String) : String.join (a :: l) = a ++ String.join l := by
  apply String.ext
  simp [String.join_eq, String.data_append]

theorem join_nil : String.join [] = "" := rfl

theorem foldl_append_eq_join {α : Type} (f : α → String) (l : List α) (acc : String) :
    l.foldl (fun result u => result ++ f u) acc = acc ++ String.join (l.map f) := by
  induction l generalizing acc with
  | nil => simp [join_nil]
  | cons a l ih => simp [ih, join_cons, String.append_assoc]

theorem fmtD_natCast (n : Nat) : fmtD (n : Int) = toString n := by
  have h : ¬ ((n : Int) < 0) := by omega
  simp [fmtD, h, decimal]
  rfl

set_option maxRecDepth 100000 in
theorem fmtD0_two_fin : ∀ k : Fin 100, fmtD0 2 (k.val : Int) = twoDigits k.val := by decide

set_option maxRecDepth 100000 in
theorem fmtD0_three_fin : ∀ k : Fin 1000, fmtD0 3 (k.val : Int) = threeDigits k.val := by decide

theorem fmtD0_two (k : Nat) (h : k < 100) : fmtD0 2 (k : Int) = twoDigits k := fmtD0_two_fin ⟨k, h⟩

theorem fmtD0_three (k : Nat) (h : k < 1000) : fmtD0 3 (k : Int) = threeDigits k :=
  fmtD0_three_fin ⟨k, h⟩

theorem twoDigits_length (k : Nat) : (twoDigits k).length = 2 := rfl

theorem threeDigits_length (k : Nat) : (threeDigits k).length = 3 := rfl

theorem toDigitsCore_length_ge (b f n : Nat) (ds : List Char) :
    ds.length + 1 ≤ (Nat.toDigitsCore b (f + 1) n ds).length := by
  induction f generalizing n ds with
  | zero =>
    simp only [Nat.toDigitsCore]
    split <;> simp [Nat.toDigitsCore]
  | succ f ih =>
    rw [Nat.toDigitsCore]
    split
    · simp
    · have := ih (n / b) (Nat.digitChar (n % b) :: ds)
      simp only [List.length_cons] at this
      omega

theorem decimal_length_ge_two (n : Nat) (h : 10 ≤ n) : 2 ≤ (decimal n).length := by
  obtain ⟨m, rfl⟩ : ∃ m, n = m + 1 := ⟨n - 1, by omega⟩
  have hne : ¬ ((m + 1) / 10 = 0) := by omega
  have h2 : (decimal (m + 1)).length = (Nat.toDigitsCore 10 (m + 1) ((m + 1) / 10)
      [Nat.digitChar ((m + 1) % 10)]).length := by
    simp [decimal, Nat.repr, Nat.toDigits, Nat.toDigitsCore, hne, List.asString, String.length]
  rw [h2]
  have := toDigitsCore_length_ge 10 m ((m + 1) / 10) [Nat.digitChar ((m + 1) % 10)]
  simpa using this

theorem fmtD0_two_natCast (n : Nat) : fmtD0 2 (n : Int) = atLeastTwoDigits n := by
  by_cases h : n < 10
  · rw [fmtD0_two n (by omega)]
    have key : ∀ k : Fin 10, twoDigits k.val = atLeastTwoDigits k.val := by decide
    exact key ⟨n, h⟩
  · have hlen := decimal_length_ge_two n (by omega)
    have hneg : ¬ ((n : Int) < 0) := by omega
    have h0 : 2 - (decimal n).length = 0 := by omega
    simp only [fmtD0, hneg, if_false, Int.natAbs_ofNat, zeroFill, h0, List.replicate, atLeastTwoDigits, h]
    apply String.ext
    simp [String.data_append, decimal]
    rfl

theorem ToSRT.loop_eq (us : List Utterance) (i : Nat) (acc : String) :
    ToSRT.loop us i acc =
      acc ++ String.join (List.zipWith srtEntry (List.range' (i + 1) us.length) us) := by
  induction us generalizing i acc with
  | nil => simp [ToSRT.loop, join_nil]
  | cons u us ih =>
    have hi : fmtD ((i : Int) + 1) = toString (i + 1) := by
      have := fmtD_natCast (i + 1)
      simpa using this
    simp only [ToSRT.loop, ih, List.length_cons, List.range'_succ, List.zipWith_cons_cons, join_cons,
      hi, srtEntry]
    simp [String.append_assoc]

theorem formatSRTTimestamp_natCast (s e : Nat) (hs : s < 360000000) (he : e < 360000000) :
    formatSRTTimestamp (s : Int) (e : Int) = srtSide s ++ " --> " ++ srtSide e := by
  have c1 : ((3600000 : Nat) : Int) = 3600000 := rfl
  have c2 : ((60000 : Nat) : Int) = 60000 := rfl
  have c3 : ((1000 : Nat) : Int) = 1000 := rfl
  have c4 : ((60 : Nat) : Int) = 60 := rfl
  unfold formatSRTTimestamp srtSide
  rw [← c1, ← c2, ← c3, ← c4]
  simp only [← Int.ofNat_tdiv, ← Int.ofNat_tmod]
  rw [fmtD0_two (s / 3600000) (by omega), fmtD0_two (s / 60000 % 60) (by omega),
    fmtD0_two (s / 1000 % 60) (by omega), fmtD0_three (s % 1000) (by omega),
    fmtD0_two (e / 3600000) (by omega), fmtD0_two (e / 60000 % 60) (by omega),
    fmtD0_two (e / 1000 % 60) (by omega), fmtD0_three (e % 1000) (by omega)]
  simp only [String.append_assoc]

theorem formatLRCTimestamp_natCast (ts : Nat) : formatLRCTimestamp (ts : Int) = lrcStamp ts := by
  have c2 : ((60000 : Nat) : Int) = 60000 := rfl
  have c3 : ((1000 : Nat) : Int) = 1000 := rfl
  have c4 : ((60 : Nat) : Int) = 60 := rfl
  have c5 : ((10 : Nat) : Int) = 10 := rfl
  unfold formatLRCTimestamp lrcStamp
  rw [← c2, ← c3, ← c4, ← c5]
  simp only [← Int.ofNat_tdiv, ← Int.ofNat_tmod]
  rw [fmtD0_two_natCast, fmtD0_two (ts / 1000 % 60) (by omega), fmtD0_two (ts % 1000 / 10) (by omega)]

theorem srtSide_length (ms : Nat) : (srtSide ms).length = 12 := by
  simp [srtSide, String.length_append, twoDigits_length, threeDigits_length]
  rfl

theorem splitLines_line (t : List Char) (rest cur : List Char) (h : '\n' ∉ t) :
    splitLines (t ++ '\n' :: rest) cur = String.mk (cur ++ t) :: splitLines rest [] := by
  induction t generalizing cur with
  | nil => simp [splitLines]
  | cons c t ih =>
    have hc : c ≠ '\n' := fun hc => h (by simp [hc])
    have ht : '\n' ∉ t := fun ht => h (by simp [ht])
    simp [splitLines, hc, ih _ ht]

theorem textLines_join (ts : List String) (h : ∀ t ∈ ts, '\n' ∉ t.data) :
    textLines (String.join (ts.map (fun t => t ++ "\n"))) = ts := by
  induction ts with
  | nil => rfl
  | cons t ts ih =>
    have h1 : '\n' ∉ t.data := h t (by simp)
    have h2 : ∀ t' ∈ ts, '\n' ∉ t'.data := fun t' ht' => h t' (by simp [ht'])
    have hd : (String.join ((t :: ts).map (fun t => t ++ "\n"))).data =
        t.data ++ '\n' :: (String.join (ts.map (fun t => t ++ "\n"))).data := by
      simp [join_cons, String.data_append]
    unfold textLines at ih ⊢
    rw [hd, splitLines_line _ _ _ h1, ih h2]
    simp

/-! ## Lemmas on the part upload loop -/

theorem reportProgress_sent (s : Run) (stage : ProgressStage) (current : Int) (description : String) :
    (reportProgress s stage current description).sent = s.sent := by
  unfold reportProgress
  split <;> rfl

theorem reportProgress_b (s : Run) (stage : ProgressStage) (current : Int) (description : String) :
    (reportProgress s stage current description).b = s.b := by
  unfold reportProgress
  split <;> rfl

theorem reportProgress_reports (s : Run) (stage : ProgressStage) (current : Int) (description : String) :
    (reportProgress s stage current description).reports =
      if s.b.onProgress then s.reports ++ [⟨stage, 100, current, description⟩] else s.reports := by
  unfold reportProgress
  split <;> rfl

theorem QueryResult_of_envelope (env : Env) (s : Run) (resp : Response) (result : ASRResponse)
    (tr : TaskResultResponse)
    (hreq : env.newRequestError (queryRequest env s.b).url = none)
    (hresp : env.roundTrip s.sent (queryRequest env s.b) = .ok resp)
    (hbody : resp.body = .ok result) (hcode : result.Code = 0)
    (hdata : result.Data.asTaskResult = .ok tr) :
    QueryResult env s =
      match QueryResult.switchState tr (s.send (queryRequest env s.b)) with
      | (some e, s2) => (.err e, s2)
      | (none, s2) =>
        if tr.State ≠ StateComplete then (.ok none, s2)
        else
          match env.unmarshalResult tr.Result with
          | .error e => (.err e, { s2 with parses := s2.parses ++ [tr.Result] })
          | .ok asrResult => (.ok (some asrResult), { s2 with parses := s2.parses ++ [tr.Result] }) := by
  simp only [QueryResult, hreq, hresp, hbody, hcode, hdata, ne_eq, not_true_eq_false, if_false]

theorem plannedParts_etags (b : BcutASR) (tags : List String) (i : Nat) (urls : List String) :
    plannedParts { b with etags := tags } i urls = plannedParts b i urls := by
  induction urls generalizing i with
  | nil => rfl
  | cons url rest ih =>
    simp only [plannedParts, ih]
    rfl

theorem goSlice_eq_some (data part : List Byte) (lo hi : Int) (h : goSlice data lo hi = some part) :
    part = (data.take hi.toNat).drop lo.toNat := by
  unfold goSlice at h
  split at h
  · exact (Option.some.inj h).symm
  · exact absurd h (by simp)

/-- One round of the loop of `uploadParts`: it stops without a request, or it issues the request
of the part and stops, or it issues the request, appends the tag and goes on. -/
theorem uploadParts.loop_round (env : Env) (t : Nat) (url : String) (rest : List String) (i : Nat)
    (s : Run) :
    ((uploadParts.loop env t (url :: rest) i s).2.sent = s.sent ∧
      (uploadParts.loop env t (url :: rest) i s).2.b = s.b ∧
      (uploadParts.loop env t (url :: rest) i s).1 ≠ .ok ()) ∨
    ((uploadParts.loop env t (url :: rest) i s).2.sent = s.sent ++ [partRequest url (partSlice s.b i)] ∧
      (uploadParts.loop env t (url :: rest) i s).2.b = s.b ∧
      ((etagOf env s.sent (partRequest url (partSlice s.b i)) = none ∧
          (uploadParts.loop env t (url :: rest) i s).1 ≠ .ok ()) ∨
        (etagOf env s.sent (partRequest url (partSlice s.b i)) = some "" ∧
          (uploadParts.loop env t (url :: rest) i s).1 =
            .err (.text ("no etag in response for part " ++ fmtD (i : Int)))))) ∨
    (∃ (tag : String) (s2 : Run),
      etagOf env s.sent (partRequest url (partSlice s.b i)) = some tag ∧ tag ≠ "" ∧
      uploadParts.loop env t (url :: rest) i s = uploadParts.loop env t rest (i + 1) s2 ∧
      s2.sent = s.sent ++ [partRequest url (partSlice s.b i)] ∧
      s2.b = { s.b with etags := s.b.etags ++ [tag] }) := by
  rw [uploadParts.loop]
  by_cases hc : env.ctxDone s.sent.length = true
  · left
    simp [hc]
  by_cases ht : t = 0
  · left
    simp [hc, ht]
  simp only [hc, ht, if_false, Bool.false_eq_true]
  have hsent := reportProgress_sent s .StageUpload ((wrapInt (wrapInt ((i : Int) + 1) * 90)).tdiv (t : Int))
    ("正在上传分片 " ++ fmtD (wrapInt ((i : Int) + 1)) ++ "/" ++ fmtD (t : Int))
  have hb := reportProgress_b s .StageUpload ((wrapInt (wrapInt ((i : Int) + 1) * 90)).tdiv (t : Int))
    ("正在上传分片 " ++ fmtD (wrapInt ((i : Int) + 1)) ++ "/" ++ fmtD (t : Int))
  generalize reportProgress s .StageUpload ((wrapInt (wrapInt ((i : Int) + 1) * 90)).tdiv (t : Int))
    ("正在上传分片 " ++ fmtD (wrapInt ((i : Int) + 1)) ++ "/" ++ fmtD (t : Int)) = s1 at hsent hb ⊢
  cases hs : goSlice s.b.soundData (partBounds s.b i).1 (partBounds s.b i).2 with
  | none =>
    left
    simp [hsent, hb]
  | some part =>
    have hpart : part = partSlice s.b i := goSlice_eq_some _ _ _ _ hs
    subst hpart
    cases hn : env.newRequestError url with
    | some e =>
      left
      simp [hsent, hb]
    | none =>
      simp only [hsent]
      cases hr : env.roundTrip s.sent (partRequest url (partSlice s.b i)) with
      | error e =>
        right; left
        simp [Run.send, hsent, hb, etagOf, hr]
      | ok resp =>
        by_cases he : resp.etag = ""
        · right; left
          simp [Run.send, hsent, hb, etagOf, hr, he]
        · right; right
          refine ⟨resp.etag,
            { s1.send (partRequest url (partSlice s.b i)) with
              b := { (s1.send (partRequest url (partSlice s.b i))).b with
                etags := (s1.send (partRequest url (partSlice s.b i))).b.etags ++ [resp.etag] } },
            ?_, he, ?_, ?_, ?_⟩
          · simp [etagOf, hr]
          · simp only [he, if_false]
          · simp [Run.send, hsent]
          · simp [Run.send, hb]

theorem BcutASR.etags_append_nil (b : BcutASR) : { b with etags := b.etags ++ [] } = b := by
  cases b
  simp

/-- The trace of the loop of `uploadParts`: the requests it issues are an initial part of the
planned part requests, the tags it appends are the non-empty `Etag` headers of the answers, in
request order; on success all planned requests were issued and every answer gave a tag; an
answer without tag belongs to the last request issued and makes the loop fail. -/
theorem uploadParts.loop_trace (env : Env) (t : Nat) (urls : List String) (i : Nat) (s : Run) :
    ∃ (puts : List Request) (tags : List String),
      (uploadParts.loop env t urls i s).2.sent = s.sent ++ puts ∧
      (uploadParts.loop env t urls i s).2.b = { s.b with etags := s.b.etags ++ tags } ∧
      puts <+: plannedParts s.b i urls ∧
      tags <+: collectTags env s.sent puts ∧
      (∀ tag ∈ tags, tag ≠ "") ∧
      ((uploadParts.loop env t urls i s).1 = .ok () →
        puts = plannedParts s.b i urls ∧ tags = collectTags env s.sent puts) ∧
      (∀ (pre : List Request) (req : Request) (post : List Request),
        puts = pre ++ req :: post → etagOf env (s.sent ++ pre) req = some "" →
        post = [] ∧ (uploadParts.loop env t urls i s).1 =
          .err (.text ("no etag in response for part " ++ fmtD ((i + pre.length : Nat) : Int)))) := by
  induction urls generalizing i s with
  | nil =>
    refine ⟨[], [], ?_, ?_, ?_, ?_, ?_, ?_, ?_⟩
    · simp [uploadParts.loop]
    · simp [uploadParts.loop]
    · simp [plannedParts]
    · simp [collectTags]
    · simp
    · intro _
      simp [plannedParts, collectTags]
    · intro pre req post h
      simp at h
  | cons url rest ih =>
    rcases uploadParts.loop_round env t url rest i s with
      ⟨h1, h2, h3⟩ | ⟨h1, h2, h3⟩ | ⟨tag, s2, htag, hne, hloop, hsent2, hb2⟩
    · refine ⟨[], [], ?_, ?_, ?_, ?_, ?_, ?_, ?_⟩
      · simpa using h1
      · simpa using h2
      · exact List.nil_prefix
      · exact List.nil_prefix
      · simp
      · intro hok
        exact absurd hok h3
      · intro pre req post h
        simp at h
    · refine ⟨[partRequest url (partSlice s.b i)], [], ?_, ?_, ?_, ?_, ?_, ?_, ?_⟩
      · exact h1
      · simpa using h2
      · simp [plannedParts, List.prefix_cons_inj]
      · exact List.nil_prefix
      · simp
      · intro hok
        rcases h3 with ⟨_, h⟩ | ⟨_, h⟩
        · exact absurd hok h
        · rw [h] at hok
          exact absurd hok (by simp)
      · intro pre req post h hempty
        have hpre : pre = [] ∧ req = partRequest url (partSlice s.b i) ∧ post = [] := by
          cases pre with
          | nil => simpa [eq_comm] using h
          | cons a pre => simp at h
        obtain ⟨rfl, rfl, rfl⟩ := hpre
        rcases h3 with ⟨h, _⟩ | ⟨_, h⟩
        · simp [h] at hempty
        · exact ⟨rfl, by simpa using h⟩
    · obtain ⟨puts, tags, i1, i2, i3, i4, i5, i6, i7⟩ := ih (i + 1) s2
      have hplan : plannedParts s2.b (i + 1) rest = plannedParts s.b (i + 1) rest := by
        rw [hb2]
        exact plannedParts_etags _ _ _ _
      refine ⟨partRequest url (partSlice s.b i) :: puts, tag :: tags, ?_, ?_, ?_, ?_, ?_, ?_, ?_⟩
      · rw [hloop, i1, hsent2]
        simp
      · rw [hloop, i2, hb2]
        simp
      · rw [hplan] at i3
        simpa [plannedParts, List.prefix_cons_inj] using i3
      · rw [hsent2] at i4
        simpa [collectTags, htag, List.prefix_cons_inj] using i4
      · intro x hx
        rcases List.mem_cons.mp hx with rfl | hx
        · exact hne
        · exact i5 x hx
      · intro hok
        rw [hloop] at hok
        obtain ⟨e1, e2⟩ := i6 hok
        rw [hplan] at e1
        rw [hsent2] at e2
        constructor
        · simp [plannedParts, e1]
        · simp only [collectTags, htag, Option.getD_some]
          rw [← e2]
      · intro pre req post h hempty
        cases pre with
        | nil =>
          simp at h
          obtain ⟨rfl, _⟩ := h
          simp [htag] at hempty
          exact absurd hempty hne
        | cons a pre =>
          simp at h
          obtain ⟨rfl, hrest⟩ := h
          have hhist : s.sent ++ partRequest url (partSlice s.b i) :: pre = s2.sent ++ pre := by
            rw [hsent2]
            simp
          rw [hhist] at hempty
          obtain ⟨hp, hr⟩ := i7 pre req post hrest hempty
          refine ⟨hp, ?_⟩
          rw [hloop, hr]
          have : i + 1 + pre.length = i + (pre.length + 1) := by omega
          simp [this]

theorem plannedParts_length (b : BcutASR) (i : Nat) (urls : List String) :
    (plannedParts b i urls).length = urls.length := by
  induction urls generalizing i with
  | nil => rfl
  | cons url rest ih => simp [plannedParts, ih]

theorem plannedParts_getElem? (b : BcutASR) (i : Nat) (urls : List String) (j : Nat) :
    (plannedParts b i urls)[j]? = (urls[j]?).map (fun url => partRequest url (partSlice b (i + j))) := by
  induction urls generalizing i j with
  | nil => simp [plannedParts]
  | cons url rest ih =>
    cases j with
    | zero => simp [plannedParts]
    | succ j =>
      simp only [plannedParts, List.getElem?_cons_succ, ih]
      have : i + 1 + j = i + (j + 1) := by omega
      rw [this]

theorem collectTags_length (env : Env) (history puts : List Request) :
    (collectTags env history puts).length = puts.length := by
  induction puts generalizing history with
  | nil => rfl
  | cons req rest ih => simp [collectTags, ih]

theorem collectTags_getElem? (env : Env) (history puts : List Request) (j : Nat) :
    (collectTags env history puts)[j]? =
      (puts[j]?).map (fun req => (etagOf env (history ++ puts.take j) req).getD "") := by
  induction puts generalizing history j with
  | nil => simp [collectTags]
  | cons req rest ih =>
    cases j with
    | zero => simp [collectTags]
    | succ j => simp [collectTags, ih]

theorem uploadParts_fst_snd (env : Env) (s : Run) :
    (uploadParts env s).2.sent = (uploadParts.loop env s.b.uploadURLs.length s.b.uploadURLs 0 s).2.sent ∧
    (uploadParts env s).2.b = (uploadParts.loop env s.b.uploadURLs.length s.b.uploadURLs 0 s).2.b ∧
    (uploadParts env s).1 = (uploadParts.loop env s.b.uploadURLs.length s.b.uploadURLs 0 s).1 := by
  unfold uploadParts
  split
  · rename_i s1 h
    simp [h, reportProgress_sent, reportProgress_b]
  · exact ⟨rfl, rfl, rfl⟩

/-- The trace of `uploadParts`, from the trace of its loop. -/
theorem uploadParts_trace (env : Env) (s : Run) :
    ∃ (puts : List Request) (tags : List String),
      (uploadParts env s).2.sent = s.sent ++ puts ∧
      (uploadParts env s).2.b = { s.b with etags := s.b.etags ++ tags } ∧
      puts <+: plannedParts s.b 0 s.b.uploadURLs ∧
      tags <+: collectTags env s.sent puts ∧
      (∀ tag ∈ tags, tag ≠ "") ∧
      ((uploadParts env s).1 = .ok () →
        puts = plannedParts s.b 0 s.b.uploadURLs ∧ tags = collectTags env s.sent puts) ∧
      (∀ (pre : List Request) (req : Request) (post : List Request),
        puts = pre ++ req :: post → etagOf env (s.sent ++ pre) req = some "" →
        post = [] ∧ (uploadParts env s).1 =
          .err (.text ("no etag in response for part " ++ fmtD (pre.length : Int)))) := by
  obtain ⟨h1, h2, h3⟩ := uploadParts_fst_snd env s
  obtain ⟨puts, tags, i1, i2, i3, i4, i5, i6, i7⟩ :=
    uploadParts.loop_trace env s.b.uploadURLs.length s.b.uploadURLs 0 s
  refine ⟨puts, tags, h1.trans i1, h2.trans i2, i3, i4, i5, ?_, ?_⟩
  · intro hok
    exact i6 (h3 ▸ hok)
  · intro pre req post hp he
    obtain ⟨a, b⟩ := i7 pre req post hp he
    refine ⟨a, ?_⟩
    rw [h3, b]
    simp

/-! ## Lemmas on the byte ranges of the parts -/

theorem wrapInt_of_range (x : Int) (h1 : -2 ^ 63 ≤ x) (h2 : x < 2 ^ 63) : wrapInt x = x := by
  unfold wrapInt
  omega

theorem ceil_parts (L p N : Nat) (hp : 0 < p) (hL : 0 < L) (hN : N = (L + p - 1) / p) :
    0 < N ∧ (N - 1) * p < L ∧ L ≤ N * p := by
  have h1 : (L + p - 1) / p * p ≤ L + p - 1 := Nat.div_mul_le_self _ _
  have h2 : L + p - 1 < (L + p - 1) / p * p + p := Nat.lt_div_mul_add hp
  rw [← hN] at h1 h2
  have hpos : 0 < N := by
    rcases Nat.eq_zero_or_pos N with h0 | h0
    · rw [h0] at h2
      omega
    · exact h0
  obtain ⟨m, rfl⟩ : ∃ m, N = m + 1 := ⟨N - 1, by omega⟩
  have h3 : (m + 1) * p = m * p + p := by ring
  rw [h3] at h1 h2 ⊢
  simp only [Nat.add_sub_cancel]
  omega

theorem part_start_lt (L p N i : Nat) (h : (N - 1) * p < L) (hi : i < N) : i * p < L := by
  have : i * p ≤ (N - 1) * p := Nat.mul_le_mul_right p (by omega)
  omega

theorem partBounds_eq (b : BcutASR) (p N i : Nat) (hp63 : (p : Int) < 2 ^ 63)
    (hper : b.perSize = (p : Int)) (hmax : b.soundData.length ≤ maxAlloc)
    (hlast : (N - 1) * p < b.soundData.length) (hi : i < N) :
    partBounds b i = (((i * p : Nat) : Int), ((min ((i + 1) * p) b.soundData.length : Nat) : Int)) := by
  have hstart := part_start_lt _ p N i hlast hi
  have hmax2 : b.soundData.length ≤ 2 ^ 60 := hmax
  have hsucc : (i + 1) * p = i * p + p := by ring
  have hle : p ≤ i * p ∨ i = 0 := by
    rcases Nat.eq_zero_or_pos i with h0 | h0
    · exact Or.inr h0
    · exact Or.inl (Nat.le_mul_of_pos_left p h0)
  have hsum : ((i * p : Nat) : Int) + (p : Int) < 2 ^ 63 := by
    rcases hle with h | h
    · omega
    · subst h
      simpa using hp63
  have e1 : wrapInt ((i : Int) * b.perSize) = ((i * p : Nat) : Int) := by
    rw [hper, ← Int.ofNat_mul]
    exact wrapInt_of_range _ (by omega) (by omega)
  have e2 : wrapInt (((i * p : Nat) : Int) + b.perSize) = ((i * p + p : Nat) : Int) := by
    rw [hper, Int.ofNat_add]
    exact wrapInt_of_range _ (by omega) hsum
  unfold partBounds
  simp only [e1, e2, hsucc]
  by_cases hgt : b.soundData.length < i * p + p
  · have : ((i * p + p : Nat) : Int) > (b.soundData.length : Int) := by omega
    rw [if_pos this, Nat.min_eq_right (Nat.le_of_lt hgt)]
  · have : ¬ ((i * p + p : Nat) : Int) > (b.soundData.length : Int) := by omega
    rw [if_neg this, Nat.min_eq_left (by omega)]

theorem take_min_drop (data : List Byte) (p i : Nat) :
    (data.take (min ((i + 1) * p) data.length)).drop (i * p) = chunk p data i := by
  unfold chunk
  rw [List.drop_take]
  have hsucc : (i + 1) * p = i * p + p := by ring
  by_cases h : (i + 1) * p ≤ data.length
  · rw [Nat.min_eq_left h, hsucc]
    simp
  · rw [Nat.min_eq_right (by omega)]
    have hlen : (data.drop (i * p)).length = data.length - i * p := List.length_drop _ _
    rw [List.take_of_length_le (by omega), List.take_of_length_le (by omega)]

theorem goSlice_partBounds (b : BcutASR) (p N i : Nat) (hp63 : (p : Int) < 2 ^ 63)
    (hper : b.perSize = (p : Int)) (hmax : b.soundData.length ≤ maxAlloc)
    (hlast : (N - 1) * p < b.soundData.length) (hi : i < N) :
    goSlice b.soundData (partBounds b i).1 (partBounds b i).2 = some (chunk p b.soundData i) ∧
    partSlice b i = chunk p b.soundData i := by
  have hb := partBounds_eq b p N i hp63 hper hmax hlast hi
  have hstart := part_start_lt _ p N i hlast hi
  have hsucc : (i + 1) * p = i * p + p := by ring
  have hc : (b.soundData.take (min ((i + 1) * p) b.soundData.length)).drop (i * p) =
      chunk p b.soundData i := take_min_drop _ _ _
  constructor
  · unfold goSlice
    rw [hb]
    have hcond : (0 : Int) ≤ ((i * p : Nat) : Int) ∧
        ((i * p : Nat) : Int) ≤ ((min ((i + 1) * p) b.soundData.length : Nat) : Int) ∧
        ((min ((i + 1) * p) b.soundData.length : Nat) : Int) ≤ (b.soundData.length : Int) := by
      refine ⟨by omega, ?_, ?_⟩
      · have : i * p ≤ min ((i + 1) * p) b.soundData.length := by
          rw [hsucc]
          exact Nat.le_min.mpr ⟨by omega, by omega⟩
        exact_mod_cast this
      · exact_mod_cast Nat.min_le_right _ _
    simp only [hcond, and_self, if_true, Int.toNat_ofNat]
    rw [hc]
  · unfold partSlice
    rw [hb]
    simp only [Int.toNat_ofNat]
    exact hc

theorem chunk_succ (p : Nat) (data : List Byte) (i : Nat) :
    chunk p data (i + 1) = chunk p (data.drop p) i := by
  unfold chunk
  rw [List.drop_drop]
  have : (i + 1) * p = p + i * p := by ring
  rw [this]

theorem chunks_flatten (p : Nat) (N : Nat) (data : List Byte) (h : data.length ≤ N * p) :
    ((List.range N).map (chunk p data)).flatten = data := by
  induction N generalizing data with
  | zero =>
    have : data = [] := List.eq_nil_of_length_eq_zero (by omega)
    simp [this]
  | succ N ih =>
    rw [List.range_succ_eq_map, List.map_cons, List.map_map, List.flatten_cons]
    have hfun : (chunk p data ∘ Nat.succ) = chunk p (data.drop p) := by
      funext i
      exact chunk_succ p data i
    rw [hfun, ih (data.drop p) (by
      rw [List.length_drop]
      have : (N + 1) * p = N * p + p := by ring
      omega)]
    have h0 : chunk p data 0 = data.take p := by simp [chunk]
    rw [h0, List.take_append_drop]

theorem chunk_length (p : Nat) (data : List Byte) (i : Nat) :
    (chunk p data i).length = min p (data.length - i * p) := by
  simp [chunk, List.length_take, List.length_drop]

theorem plannedParts_eq_zipWith (b : BcutASR) (i : Nat) (urls : List String) :
    plannedParts b i urls =
      List.zipWith partRequest urls ((List.range' i urls.length).map (partSlice b)) := by
  induction urls generalizing i with
  | nil => simp [plannedParts]
  | cons url rest ih => simp [plannedParts, ih, List.range'_succ]

/-! ## Lemmas on the polling loop -/

theorem reportProgress_parses (s : Run) (stage : ProgressStage) (current : Int) (description : String) :
    (reportProgress s stage current description).parses = s.parses := by
  unfold reportProgress
  split <;> rfl

theorem reportProgress_written (s : Run) (stage : ProgressStage) (current : Int)
    (description : String) : (reportProgress s stage current description).written = s.written := by
  unfold reportProgress
  split <;> rfl

theorem afterRunning_facts (env : Env) (s : Run) (k : Nat) :
    (afterRunning env s k).sent = s.sent ++ List.replicate k (queryRequest env s.b) ∧
    (afterRunning env s k).b = s.b ∧
    (afterRunning env s k).parses = s.parses ∧
    (afterRunning env s k).written = s.written ∧
    (afterRunning env s k).reports = s.reports ++
      (if s.b.onProgress then List.replicate k ⟨.StageProcess, 100, 75, "正在识别..."⟩ else []) := by
  induction k generalizing s with
  | zero => simp [afterRunning]
  | succ k ih =>
    obtain ⟨h1, h2, h3, h4, h5⟩ :=
      ih (reportProgress (s.send (queryRequest env s.b)) .StageProcess 75 "正在识别...")
    have hb : (reportProgress (s.send (queryRequest env s.b)) .StageProcess 75 "正在识别...").b = s.b := by
      rw [reportProgress_b]
      rfl
    rw [hb] at h1 h2 h5
    refine ⟨?_, ?_, ?_, ?_, ?_⟩
    · simp only [afterRunning]
      rw [h1, reportProgress_sent]
      simp [Run.send, List.replicate_succ]
    · simp only [afterRunning]
      exact h2
    · simp only [afterRunning]
      rw [h3, reportProgress_parses]
      rfl
    · simp only [afterRunning]
      rw [h4, reportProgress_written]
      rfl
    · simp only [afterRunning]
      rw [h5, reportProgress_reports]
      by_cases hp : s.b.onProgress = true
      · simp [hp, Run.send, List.replicate_succ]
      · simp [hp, Run.send]

theorem switchState_written (tr : TaskResultResponse) (s : Run) :
    (QueryResult.switchState tr s).2.written = s.written := by
  unfold QueryResult.switchState
  split_ifs <;> simp [reportProgress_written]

theorem QueryResult_written (env : Env) (s : Run) : (QueryResult env s).2.written = s.written := by
  cases h1 : env.newRequestError (queryRequest env s.b).url with
  | some e => simp [QueryResult, h1]
  | none =>
    cases h2 : env.roundTrip s.sent (queryRequest env s.b) with
    | error e => simp [QueryResult, h1, h2, Run.send]
    | ok resp =>
      cases h3 : resp.body with
      | error e => simp [QueryResult, h1, h2, h3, Run.send]
      | ok result =>
        by_cases h4 : result.Code = 0
        · cases h5 : result.Data.asTaskResult with
          | error e => simp [QueryResult, h1, h2, h3, h4, h5, Run.send]
          | ok tr =>
            have hsw := switchState_written tr (s.send (queryRequest env s.b))
            have hsend : (s.send (queryRequest env s.b)).written = s.written := rfl
            rw [hsend] at hsw
            rw [QueryResult_of_envelope env s resp result tr h1 h2 h3 h4 h5]
            cases h6 : QueryResult.switchState tr (s.send (queryRequest env s.b)) with
            | mk oe s2 =>
              rw [h6] at hsw
              simp only at hsw
              cases oe with
              | some e => simpa using hsw
              | none =>
                by_cases h7 : tr.State = StateComplete
                · cases h8 : env.unmarshalResult tr.Result with
                  | error e => simpa [h7, h8] using hsw
                  | ok parsed => simpa [h7, h8] using hsw
                · simpa [h7] using hsw
        · simp [QueryResult, h1, h2, h3, h4, Run.send]

theorem pollLoop_written (env : Env) (fuel : Nat) (s : Run) (r : Outcome ASRResult) (s1 : Run)
    (h : pollLoop env fuel s = some (r, s1)) : s1.written = s.written := by
  induction fuel generalizing s with
  | zero => simp [pollLoop] at h
  | succ fuel ih =>
    rw [pollLoop] at h
    have hq := QueryResult_written env s
    split at h
    · simp at h
      rw [← h.2]
    · split at h
      all_goals rename_i heq
      all_goals rw [heq] at hq
      all_goals simp only at hq
      · simp at h
        rw [← h.2, hq]
      · simp at h
        rw [← h.2, hq]
      · rw [ih _ h, hq]
      · simp at h
        rw [← h.2, hq]

/-- A poll that finds the task running returns the nil result after the report at 75. -/
theorem QueryResult_running (env : Env) (s : Run) (resp : Response) (result : ASRResponse)
    (tr : TaskResultResponse)
    (hreq : env.newRequestError (queryRequest env s.b).url = none)
    (hresp : env.roundTrip s.sent (queryRequest env s.b) = .ok resp)
    (hbody : resp.body = .ok result) (hcode : result.Code = 0)
    (hdata : result.Data.asTaskResult = .ok tr) (hstate : tr.State = StateRunning) :
    QueryResult env s =
      (.ok none, reportProgress (s.send (queryRequest env s.b)) .StageProcess 75 "正在识别...") := by
  rw [QueryResult_of_envelope env s resp result tr hreq hresp hbody hcode hdata]
  simp [QueryResult.switchState, hstate, StateStop, StateRunning, StateComplete]

/-- While the task is reported running and the context is not done, every round of the polling
loop issues one query and the loop goes on. -/
theorem pollLoop_while_running (env : Env) (k : Nat) (s : Run)
    (hctx : ∀ j, j < k → env.ctxDone (s.sent.length + j) = false)
    (hreq : env.newRequestError (queryRequest env s.b).url = none)
    (hrun : ∀ j, j < k → ∃ (resp : Response) (result : ASRResponse) (tr : TaskResultResponse),
      env.roundTrip (s.sent ++ List.replicate j (queryRequest env s.b)) (queryRequest env s.b) = .ok resp ∧
      resp.body = .ok result ∧ result.Code = 0 ∧ result.Data.asTaskResult = .ok tr ∧
      tr.State = StateRunning) :
    (∀ fuel, pollLoop env (k + fuel) s = pollLoop env fuel (afterRunning env s k)) ∧
    (∀ fuel, fuel ≤ k → pollLoop env fuel s = none) := by
  induction k generalizing s with
  | zero =>
    constructor
    · intro fuel
      simp [afterRunning]
    · intro fuel hf
      have : fuel = 0 := by omega
      subst this
      rfl
  | succ k ih =>
    obtain ⟨resp, result, tr, h1, h2, h3, h4, h5⟩ := hrun 0 (by omega)
    simp only [List.replicate_zero, List.append_nil] at h1
    have hq := QueryResult_running env s resp result tr hreq h1 h2 h3 h4 h5
    have hc : env.ctxDone s.sent.length = false := by simpa using hctx 0 (by omega)
    have hb : (reportProgress (s.send (queryRequest env s.b)) .StageProcess 75 "正在识别...").b = s.b := by
      rw [reportProgress_b]
      rfl
    have hs : (reportProgress (s.send (queryRequest env s.b)) .StageProcess 75 "正在识别...").sent =
        s.sent ++ [queryRequest env s.b] := by
      rw [reportProgress_sent]
      rfl
    obtain ⟨ih1, ih2⟩ := ih (reportProgress (s.send (queryRequest env s.b)) .StageProcess 75 "正在识别...")
      (by
        intro j hj
        rw [hs]
        have := hctx (j + 1) (by omega)
        simpa [Nat.add_assoc, Nat.add_comm 1 j] using this)
      (by rw [hb]; exact hreq)
      (by
        intro j hj
        rw [hb, hs]
        obtain ⟨resp, result, tr, g1, g2⟩ := hrun (j + 1) (by omega)
        refine ⟨resp, result, tr, ?_, g2⟩
        simpa [List.replicate_succ] using g1)
    have hstep : ∀ fuel, pollLoop env (fuel + 1) s =
        pollLoop env fuel (reportProgress (s.send (queryRequest env s.b)) .StageProcess 75 "正在识别...") := by
      intro fuel
      rw [pollLoop]
      simp [hc, hq]
    constructor
    · intro fuel
      have : k + 1 + fuel = (k + fuel) + 1 := by omega
      rw [this, hstep, ih1]
      rfl
    · intro fuel hf
      cases fuel with
      | zero => rfl
      | succ fuel =>
        rw [hstep]
        exact ih2 fuel (by omega)

/-! ## Lemmas on the media loader -/

theorem findFormat_some (ext format : String) (formats : List String)
    (h : processMedia.findFormat ext formats = some format) :
    format ∈ formats ∧ "." ++ format = ext := by
  induction formats with
  | nil => simp [processMedia.findFormat] at h
  | cons f rest ih =>
    rw [processMedia.findFormat] at h
    split at h
    · rename_i heq
      have : f = format := Option.some.inj h
      subst this
      exact ⟨by simp, heq⟩
    · obtain ⟨h1, h2⟩ := ih h
      exact ⟨List.mem_cons_of_mem _ h1, h2⟩

theorem findFormat_none (ext : String) (formats : List String)
    (h : processMedia.findFormat ext formats = none) : ∀ format ∈ formats, "." ++ format ≠ ext := by
  induction formats with
  | nil => simp
  | cons f rest ih =>
    rw [processMedia.findFormat] at h
    split at h
    · simp at h
    · rename_i hne
      intro format hmem
      rcases List.mem_cons.mp hmem with rfl | hmem
      · exact hne
      · exact ih h format hmem

theorem dot_append_cancel (a b : String) (h : "." ++ a = "." ++ b) : a = b := by
  have := congrArg String.data h
  simp only [String.data_append] at this
  exact String.ext (List.append_cancel_left this)

theorem Ext.scan_takeWhile (rev acc : List Char) :
    Ext.scan rev acc = Ext.scan (rev.takeWhile (fun c => c ≠ '/')) acc := by
  induction rev generalizing acc with
  | nil => rfl
  | cons c rev ih =>
    by_cases h1 : c = '/'
    · simp [Ext.scan, h1, List.takeWhile]
    · by_cases h2 : c = '.'
      · simp [Ext.scan, h2, List.takeWhile]
      · simp [Ext.scan, h1, h2, List.takeWhile, ih (c :: acc)]

theorem Ext.scan_suffix (rev acc : List Char) :
    Ext.scan rev acc = [] ∨ ∃ k, Ext.scan rev acc = (rev.take k).reverse ++ acc := by
  induction rev generalizing acc with
  | nil => exact Or.inl rfl
  | cons c rev ih =>
    by_cases h1 : c = '/'
    · exact Or.inl (by simp [Ext.scan, h1])
    · by_cases h2 : c = '.'
      · exact Or.inr ⟨1, by simp [Ext.scan, h2]⟩
      · rcases ih (c :: acc) with h | ⟨k, h⟩
        · exact Or.inl (by simp [Ext.scan, h1, h2, h])
        · exact Or.inr ⟨k + 1, by simp [Ext.scan, h1, h2, h]⟩

theorem Ext_suffix (x : String) : (Ext x).data <:+ x.data := by
  unfold Ext
  rcases Ext.scan_suffix x.data.reverse [] with h | ⟨k, h⟩
  · rw [h]
    exact List.nil_suffix
  · rw [h]
    simp only [List.append_nil]
    refine ⟨(x.data.reverse.drop k).reverse, ?_⟩
    rw [← List.reverse_append, List.take_append_drop, List.reverse_reverse]

theorem TrimSuffix_Ext (x : String) : TrimSuffix x (Ext x) = withoutExt x := by
  unfold TrimSuffix withoutExt
  have h : (Ext x).data.isSuffixOf x.data = true := List.isSuffixOf_iff_suffix.mpr (Ext_suffix x)
  simp [h]

theorem Ext_Base (filePath : String) (c : Char) (rev : List Char)
    (hrev : filePath.data.reverse = c :: rev) (hc : c ≠ '/') :
    Ext filePath = Ext (Base filePath) := by
  have hne : filePath ≠ "" := by
    intro h
    rw [h] at hrev
    simp at hrev
  have hlast : (c :: rev).takeWhile (fun c => c ≠ '/') ≠ [] := by
    simp [List.takeWhile, hc]
  have hbase : Base filePath = String.mk ((c :: rev).takeWhile (fun c => c ≠ '/')).reverse := by
    have hrev2 : ((c :: rev).takeWhile (fun c => c ≠ '/')).reverse ≠ [] := by
      simpa using hlast
    unfold Base
    simp only [hne, if_false, hrev, dropSeparators, hc]
    rw [if_neg hrev2]
  rw [hbase]
  unfold Ext
  simp only [hrev, List.reverse_reverse]
  rw [← Ext.scan_takeWhile]

/-! ## The pipeline of `ConvertToSubtitle` -/

theorem Upload_after_plan (env : Env) (s0 : Run) (resp : Response) (result : ASRResponse)
    (plan : ResourceCreateResponse)
    (hreq : env.newRequestError (createResourceRequest env s0.b).url = none)
    (hresp : env.roundTrip s0.sent (createResourceRequest env s0.b) = .ok resp)
    (hbody : resp.body = .ok result) (hcode : result.Code = 0)
    (hdata : result.Data.asResourceCreate = .ok plan) :
    Upload env s0 =
      match uploadParts env
          { s0.send (createResourceRequest env s0.b) with b := s0.b.withPlan plan } with
      | (.err e, s3) => (.err (.wrap "upload parts failed: " e), s3)
      | (.panic msg, s3) => (.panic msg, s3)
      | (.ok (), s3) =>
        match commitUpload env s3 with
        | (.err e, s4) => (.err (.wrap "commit upload failed: " e), s4)
        | (.panic msg, s4) => (.panic msg, s4)
        | (.ok (), s4) => (.ok (), s4) := by
  simp only [Upload, hreq, hresp, hbody, hcode, hdata, ne_eq, not_true_eq_false, if_false]
  rfl

theorem pollLoop_step (env : Env) (fuel : Nat) (s : Run) (hc : env.ctxDone s.sent.length = false) :
    pollLoop env (fuel + 1) s =
      match QueryResult env s with
      | (.err e, s1) => some (.err e, s1)
      | (.panic msg, s1) => some (.panic msg, s1)
      | (.ok none, s1) => pollLoop env fuel s1
      | (.ok (some result), s1) => some (.ok result, s1) := by
  rw [pollLoop]
  simp [hc]

theorem ConvertToSubtitle_stops_after_Upload (env : Env) (inputFile : String) (options : ConvertOptions)
    (fuel : Nat) (s1 s2 : Run) (e : GoError)
    (hset : SetData env (Run.start (WithProgress New options.Progress)) inputFile = (.ok (), s1))
    (hup : Upload env s1 = (.err e, s2)) (hfmt : options.Format ≠ "") :
    ConvertToSubtitle env inputFile [options] fuel = some (.err e, s2) := by
  cases hnp : options.Interval.nonPositive <;> simp [ConvertToSubtitle, hfmt, hnp, hset, hup]

theorem ConvertToSubtitle_stops_after_CreateTask (env : Env) (inputFile : String)
    (options : ConvertOptions) (fuel : Nat) (s1 s2 s3 : Run) (e : GoError)
    (hset : SetData env (Run.start (WithProgress New options.Progress)) inputFile = (.ok (), s1))
    (hup : Upload env s1 = (.ok (), s2)) (htask : CreateTask env s2 = (.err e, s3))
    (hfmt : options.Format ≠ "") :
    ConvertToSubtitle env inputFile [options] fuel = some (.err e, s3) := by
  cases hnp : options.Interval.nonPositive <;> simp [ConvertToSubtitle, hfmt, hnp, hset, hup, htask]

/-- An interval that is neither at most zero nor converted to a positive duration makes
`ConvertToSubtitle` panic in `time.NewTicker`, after the task has been created and reported and
before the first query. -/
theorem ConvertToSubtitle_without_ticker (env : Env) (inputFile : String) (options : ConvertOptions)
    (fuel : Nat) (s1 s2 s3 : Run) (taskID : String)
    (hfmt : options.Format ≠ "")
    (hnp : options.Interval.nonPositive = false) (hdur : options.Interval.duration ≤ 0)
    (hset : SetData env (Run.start (WithProgress New options.Progress)) inputFile = (.ok (), s1))
    (hup : Upload env s1 = (.ok (), s2)) (htask : CreateTask env s2 = (.ok taskID, s3)) :
    ConvertToSubtitle env inputFile [options] fuel =
      some (.panic "non-positive interval for NewTicker", reportTaskCreated options taskID s3) := by
  simp [ConvertToSubtitle, hfmt, hnp, hset, hup, htask, NewTicker, hdur]

/-- With an interval that is at most zero (replaced by 30 seconds) or converted to a positive
duration, `ConvertToSubtitle` enters the polling loop once the task has been created, and ends
as the loop ends. -/
theorem ConvertToSubtitle_polls (env : Env) (inputFile : String) (options : ConvertOptions)
    (fuel : Nat) (s1 s2 s3 : Run) (taskID : String)
    (hfmt : options.Format ≠ "")
    (hdur : options.Interval.nonPositive = true ∨ 0 < options.Interval.duration)
    (hset : SetData env (Run.start (WithProgress New options.Progress)) inputFile = (.ok (), s1))
    (hup : Upload env s1 = (.ok (), s2)) (htask : CreateTask env s2 = (.ok taskID, s3)) :
    ConvertToSubtitle env inputFile [options] fuel =
      match pollLoop env fuel (reportTaskCreated options taskID s3) with
      | none => none
      | some (.err e, s5) => some (.err e, s5)
      | some (.panic msg, s5) => some (.panic msg, s5)
      | some (.ok result, s5) => some (writeOutput env options inputFile result s5) := by
  cases hnp : options.Interval.nonPositive with
  | true =>
    simp only [ConvertToSubtitle, hfmt, hnp, if_true, if_false, hset, hup, htask, NewTicker,
      thirtySeconds, Bool.false_eq_true, reduceIte]
    rfl
  | false =>
    have hd : ¬ options.Interval.duration ≤ 0 := by
      rcases hdur with h | h
      · rw [hnp] at h
        exact absurd h (by decide)
      · omega
    simp only [ConvertToSubtitle, hfmt, hnp, if_false, hset, hup, htask, NewTicker, hd,
      Bool.false_eq_true, reduceIte]

/-- A query that returns an error after `k` polls that found the task running ends the polling
loop with that error, for every fuel above `k`. -/
theorem pollLoop_error_after_running (env : Env) (s : Run) (k : Nat)
    (hctx : ∀ j, j ≤ k → env.ctxDone (s.sent.length + j) = false)
    (hreq : env.newRequestError (queryRequest env s.b).url = none)
    (hrun : ∀ j, j < k → ∃ (resp : Response) (result : ASRResponse) (tr : TaskResultResponse),
      env.roundTrip (s.sent ++ List.replicate j (queryRequest env s.b)) (queryRequest env s.b) = .ok resp ∧
      resp.body = .ok result ∧ result.Code = 0 ∧ result.Data.asTaskResult = .ok tr ∧
      tr.State = StateRunning)
    (e : GoError) (se : Run) (hq : QueryResult env (afterRunning env s k) = (.err e, se))
    (fuel : Nat) (hfuel : k < fuel) :
    pollLoop env fuel s = some (.err e, se) ∧ se.written = s.written := by
  obtain ⟨hshift, _⟩ := pollLoop_while_running env k s (fun j hj => hctx j (by omega)) hreq hrun
  obtain ⟨f1, _, _, f4, _⟩ := afterRunning_facts env s k
  have hc : env.ctxDone (afterRunning env s k).sent.length = false := by
    rw [f1]
    simpa using hctx k (Nat.le_refl k)
  obtain ⟨m, rfl⟩ : ∃ m, fuel = k + (m + 1) := ⟨fuel - k - 1, by omega⟩
  have hw := QueryResult_written env (afterRunning env s k)
  rw [hq] at hw
  refine ⟨?_, ?_⟩
  · rw [hshift, pollLoop_step env m _ hc, hq]
  · rw [← f4]
    exact hw

/-- Mapping over a zip of two lists of the same length, when the image of a pair depends on its
second member only. -/
theorem map_zipWith_snd {α β γ δ : Type} (f : α → β → γ) (g : γ → δ) (h : β → δ)
    (hfg : ∀ a b, g (f a b) = h b) :
    ∀ (xs : List α) (ys : List β), xs.length = ys.length →
      (List.zipWith f xs ys).map g = ys.map h
  | [], [], _ => rfl
  | [], _ :: _, hl => by simp at hl
  | _ :: _, [], hl => by simp at hl
  | x :: xs, y :: ys, hl => by
    simp only [List.zipWith_cons_cons, List.map_cons, hfg]
    rw [map_zipWith_snd f g h hfg xs ys (by simpa using hl)]

/-- Mapping over a zip of two lists of the same length, when the image of a pair depends on its
first member only. -/
theorem map_zipWith_fst {α β γ δ : Type} (f : α → β → γ) (g : γ → δ) (h : α → δ)
    (hfg : ∀ a b, g (f a b) = h a) :
    ∀ (xs : List α) (ys : List β), xs.length = ys.length →
      (List.zipWith f xs ys).map g = xs.map h
  | [], [], _ => rfl
  | [], _ :: _, hl => by simp at hl
  | _ :: _, [], hl => by simp at hl
  | x :: xs, y :: ys, hl => by
    simp only [List.zipWith_cons_cons, List.map_cons, hfg]
    rw [map_zipWith_fst f g h hfg xs ys (by simpa using hl)]

/-! ## Result formatter: SRT, LRC and TXT renderings -/

/-- C1: `ToSRT` returns exactly the concatenation, in list order, of one entry per utterance;
the entry of the `i`-th utterance (counting from 1) is the index line `i`, the timestamp range
line of its start and end time, its transcript line and one empty line; the indices are
`1, 2, ..., n`; the empty list gives the empty string; the two utterances of the unit test give
the expected text. -/
theorem ToSRT_concatenates_numbered_entries (r : ASRResult) :
    ToSRT r = String.join (List.zipWith srtEntry (List.range' 1 r.Utterances.length) r.Utterances) ∧
    (∀ (i : Nat) (u : Utterance), srtEntry i u =
      toString i ++ "\n" ++ formatSRTTimestamp u.StartTime u.EndTime ++ "\n" ++ u.Transcript ++ "\n\n") ∧
    (∀ k : Fin r.Utterances.length,
      (List.range' 1 r.Utterances.length).get ⟨k.val, by simp⟩ = k.val + 1) ∧
    ToSRT ⟨[], r.Version⟩ = "" ∧
    ToSRT ⟨[⟨1000, 2000, "测试字幕1", []⟩, ⟨3000, 4000, "测试字幕2", []⟩], r.Version⟩ =
      "1\n00:00:01,000 --> 00:00:02,000\n测试字幕1\n\n2\n00:00:03,000 --> 00:00:04,000\n测试字幕2\n\n" := by
  refine ⟨?_, ?_, ?_, rfl, rfl⟩
  · have := ToSRT.loop_eq r.Utterances 0 ""
    simpa [ToSRT] using this
  · intro i u
    simp [srtEntry, String.append_assoc]
  · intro k
    simp [List.getElem_range']
    omega

/-- C2: `ToLRC` returns the concatenation, in list order, of `[stamp]transcript\n` per
utterance, where the stamp of a start time `ts >= 0` is `MM:SS.cc` with `MM = ts / 60000`
written with at least two digits and never wrapped (one hour renders as minute 60),
`SS = (ts / 1000) mod 60` and `cc = (ts mod 1000) / 10` with two digits each; changing the
end times does not change the output; the two utterances of the unit test give the expected
text. -/
theorem ToLRC_concatenates_stamped_lines (r : ASRResult) (ts : Nat) (newEnd : Utterance → Int) :
    ToLRC r = String.join (r.Utterances.map
      (fun u => "[" ++ formatLRCTimestamp u.StartTime ++ "]" ++ u.Transcript ++ "\n")) ∧
    formatLRCTimestamp (ts : Int) =
      atLeastTwoDigits (ts / 60000) ++ ":" ++ twoDigits (ts / 1000 % 60) ++ "." ++
        twoDigits (ts % 1000 / 10) ∧
    60 ≤ (3600000 + ts) / 60000 ∧
    formatLRCTimestamp 3600000 = "60:00.00" ∧
    ToLRC ⟨r.Utterances.map (fun u => { u with EndTime := newEnd u }), r.Version⟩ = ToLRC r ∧
    ToLRC ⟨[⟨61000, 62000, "测试字幕1", []⟩, ⟨122000, 123000, "测试字幕2", []⟩], r.Version⟩ =
      "[01:01.00]测试字幕1\n[02:02.00]测试字幕2\n" := by
  refine ⟨?_, ?_, by omega, rfl, ?_, rfl⟩
  · simp [ToLRC, foldl_append_eq_join]
  · exact formatLRCTimestamp_natCast ts
  · simp [ToLRC, foldl_append_eq_join, List.map_map, Function.comp_def]

/-- C3, as the claim states it, fails: a single utterance whose transcript holds a line break
makes `ToTXT` return two lines for one utterance. -/
theorem ToTXT_line_count_counterexample :
    (textLines (ToTXT ⟨[⟨0, 1000, "a\nb", []⟩], "1.0"⟩)).length ≠
      (ASRResult.mk [⟨0, 1000, "a\nb", []⟩] "1.0").Utterances.length := by
  decide

/-- C3 (amended): for every utterance list, `ToTXT` returns the transcripts in list order,
each followed by `\n`; when no transcript holds a line break, the lines of the output are
exactly the transcripts, in order, so the line count equals the utterance count. -/
theorem ToTXT_lines_are_transcripts (r : ASRResult) :
    ToTXT r = String.join (r.Utterances.map (fun u => u.Transcript ++ "\n")) ∧
    ((∀ u ∈ r.Utterances, '\n' ∉ u.Transcript.data) →
      textLines (ToTXT r) = r.Utterances.map (fun u => u.Transcript) ∧
      (textLines (ToTXT r)).length = r.Utterances.length) := by
  have h1 : ToTXT r = String.join (r.Utterances.map (fun u => u.Transcript ++ "\n")) := by
    simp [ToTXT, foldl_append_eq_join]
  refine ⟨h1, fun h => ?_⟩
  have h2 : textLines (ToTXT r) = r.Utterances.map (fun u => u.Transcript) := by
    have := textLines_join (r.Utterances.map (fun u => u.Transcript)) (by simpa using h)
    rw [h1]
    simpa [List.map_map, Function.comp_def] using this
  exact ⟨h2, by simp [h2]⟩

/-- Witness of C3 (amended) at the two transcripts of the unit test. -/
theorem ToTXT_lines_are_transcripts_witness :
    (∀ u ∈ (ASRResult.mk [⟨0, 0, "测试字幕1", []⟩, ⟨0, 0, "测试字幕2", []⟩] "").Utterances,
      '\n' ∉ u.Transcript.data) ∧
    ToTXT ⟨[⟨0, 0, "测试字幕1", []⟩, ⟨0, 0, "测试字幕2", []⟩], ""⟩ = "测试字幕1\n测试字幕2\n" ∧
    textLines (ToTXT ⟨[⟨0, 0, "测试字幕1", []⟩, ⟨0, 0, "测试字幕2", []⟩], ""⟩) =
      ["测试字幕1", "测试字幕2"] ∧
    (textLines (ToTXT ⟨[⟨0, 0, "测试字幕1", []⟩, ⟨0, 0, "测试字幕2", []⟩], ""⟩)).length = 2 :=
  ⟨by decide, rfl,
    (ToTXT_lines_are_transcripts ⟨[⟨0, 0, "测试字幕1", []⟩, ⟨0, 0, "测试字幕2", []⟩], ""⟩).2
      (by decide)⟩

/-- C4: for start and end times from 0 up to (not including) 360000000 ms, `formatSRTTimestamp`
renders each side as the 12 characters `HH:MM:SS,mmm` with `HH = ms / 3600000`,
`MM = (ms / 60000) mod 60`, `SS = (ms / 1000) mod 60`, `mmm = ms mod 1000`, written with
2, 2, 2 and 3 digits, and joins the sides by ` --> `; 1000 ms renders as `00:00:01,000`. -/
theorem formatSRTTimestamp_sides (start stop : Int)
    (hs0 : 0 ≤ start) (hs : start < 360000000) (he0 : 0 ≤ stop) (he : stop < 360000000) :
    formatSRTTimestamp start stop = srtSide start.toNat ++ " --> " ++ srtSide stop.toNat ∧
    (∀ ms : Nat, srtSide ms =
      twoDigits (ms / 3600000) ++ ":" ++ twoDigits (ms / 60000 % 60) ++ ":" ++
        twoDigits (ms / 1000 % 60) ++ "," ++ threeDigits (ms % 1000)) ∧
    (srtSide start.toNat).length = 12 ∧ (srtSide stop.toNat).length = 12 ∧
    srtSide 1000 = "00:00:01,000" := by
  refine ⟨?_, fun _ => rfl, srtSide_length _, srtSide_length _, rfl⟩
  have h := formatSRTTimestamp_natCast start.toNat stop.toNat (by omega) (by omega)
  rwa [Int.toNat_of_nonneg hs0, Int.toNat_of_nonneg he0] at h

/-- Witness of C4 at the first utterance of the unit test. -/
theorem formatSRTTimestamp_sides_witness :
    formatSRTTimestamp 1000 2000 = "00:00:01,000" ++ " --> " ++ "00:00:02,000" :=
  (formatSRTTimestamp_sides 1000 2000 (by decide) (by decide) (by decide) (by decide)).1

/-! ## One poll: `QueryResult` -/

/-- C5: for a task-result response with code 0, `QueryResult` dispatches on the state: 0 reports
stage process at 50 and returns (nil, nil); 1 reports stage process at 75 and returns (nil, nil);
3 returns the error `task failed: <remark>` and no result; 4 reports stage complete at 100 and
returns the decoded embedded result, or the decoder's error; any other state returns (nil, nil)
without a report; a non-nil result is returned only for state 4. -/
theorem QueryResult_dispatches_on_state (env : Env) (s : Run) (resp : Response) (result : ASRResponse)
    (tr : TaskResultResponse)
    (hreq : env.newRequestError (queryRequest env s.b).url = none)
    (hresp : env.roundTrip s.sent (queryRequest env s.b) = .ok resp)
    (hbody : resp.body = .ok result) (hcode : result.Code = 0)
    (hdata : result.Data.asTaskResult = .ok tr) :
    (tr.State = 0 → QueryResult env s =
      (.ok none, reportProgress (s.send (queryRequest env s.b)) .StageProcess 50 "排队中...")) ∧
    (tr.State = 1 → QueryResult env s =
      (.ok none, reportProgress (s.send (queryRequest env s.b)) .StageProcess 75 "正在识别...")) ∧
    (tr.State = 3 → QueryResult env s =
      (.err (.text ("task failed: " ++ tr.Remark)), s.send (queryRequest env s.b)) ∧
      (GoError.text ("task failed: " ++ tr.Remark)).Error = "task failed: " ++ tr.Remark) ∧
    (tr.State = 4 → ∀ parsed, env.unmarshalResult tr.Result = .ok parsed → QueryResult env s =
      (.ok (some parsed),
        { reportProgress (s.send (queryRequest env s.b)) .StageComplete 100 "识别完成" with
          parses := s.parses ++ [tr.Result] })) ∧
    (tr.State = 4 → ∀ e, env.unmarshalResult tr.Result = .error e → QueryResult env s =
      (.err e,
        { reportProgress (s.send (queryRequest env s.b)) .StageComplete 100 "识别完成" with
          parses := s.parses ++ [tr.Result] })) ∧
    (tr.State ≠ 0 → tr.State ≠ 1 → tr.State ≠ 3 → tr.State ≠ 4 →
      QueryResult env s = (.ok none, s.send (queryRequest env s.b))) ∧
    (∀ r, (QueryResult env s).1 = .ok (some r) → tr.State = 4) ∧
    (∀ (stage : ProgressStage) (current : Int) (description : String),
      (reportProgress (s.send (queryRequest env s.b)) stage current description).reports =
        if s.b.onProgress then s.reports ++ [⟨stage, 100, current, description⟩] else s.reports) := by
  have h := QueryResult_of_envelope env s resp result tr hreq hresp hbody hcode hdata
  have hparses : ∀ (stage : ProgressStage) (current : Int) (description : String),
      (reportProgress (s.send (queryRequest env s.b)) stage current description).parses = s.parses := by
    intro stage current description
    unfold reportProgress
    split <;> rfl
  refine ⟨?_, ?_, ?_, ?_, ?_, ?_, ?_, ?_⟩
  · intro h0
    rw [h]
    simp [QueryResult.switchState, h0, StateStop, StateComplete]
  · intro h1
    rw [h]
    simp [QueryResult.switchState, h1, StateStop, StateRunning, StateComplete]
  · intro h3
    refine ⟨?_, rfl⟩
    rw [h]
    simp [QueryResult.switchState, h3, StateStop, StateRunning, StateError]
  · intro h4 parsed hp
    rw [h]
    simp [QueryResult.switchState, h4, StateStop, StateRunning, StateError, StateComplete, hp, hparses]
  · intro h4 e he
    rw [h]
    simp [QueryResult.switchState, h4, StateStop, StateRunning, StateError, StateComplete, he, hparses]
  · intro h0 h1 h3 h4
    rw [h]
    simp [QueryResult.switchState, h0, h1, h3, h4, StateStop, StateRunning, StateError, StateComplete]
  · intro r hr
    by_contra h4
    rw [h] at hr
    simp only [QueryResult.switchState, StateStop, StateRunning, StateError, StateComplete] at hr
    split_ifs at hr <;> simp_all
  · intro stage current description
    exact reportProgress_reports _ _ _ _

/-- Witness of C5: the server of `TestBcutASR_QueryResult` (state 4, one utterance from 0 to 1000
with the transcript `test transcript`) makes `QueryResult` return exactly that utterance. -/
theorem QueryResult_dispatches_on_state_witness :
    (QueryResult (scriptedEnv testPlan "" 0) (Run.start { New with taskID := "test-task" })).1 =
      .ok (some { Utterances := [{ StartTime := 0, EndTime := 1000, Transcript := "test transcript",
                                   Words := [] }],
                  Version := "1.0" }) := by
  have h := (QueryResult_dispatches_on_state (scriptedEnv testPlan "" 0)
    (Run.start { New with taskID := "test-task" })
    { etag := "", body := .ok { Code := 0, Message := "", Data := { emptyData with
        asTaskResult := .ok ⟨"test-task", testResultText, "", StateComplete⟩ } } }
    { Code := 0, Message := "", Data := { emptyData with
        asTaskResult := .ok ⟨"test-task", testResultText, "", StateComplete⟩ } }
    ⟨"test-task", testResultText, "", StateComplete⟩ rfl rfl rfl rfl rfl).2.2.2.1 rfl testResult rfl
  rw [h]
  rfl

/-! ## Response envelopes with a nonzero code -/

theorem apiError_Error (result : ASRResponse) :
    (apiError result).Error = "API error: " ++ fmtD result.Code ++ " - " ++ result.Message := rfl

/-- C6: a response envelope with a nonzero code ends each of the four steps (create resource,
commit upload, create task, query result) in the same way: the step returns the API error built
from the code and the message of the envelope, the session is left as it was, and the request of
the step is the only one issued (a failed create is followed by no part upload and no commit).
No later step follows: `Upload` returns the error of a failed commit, wrapped, with the commit
request as the last request and the session as the part upload left it; `ConvertToSubtitle`
returns the error of a failed `Upload` or `CreateTask` with the run of that step; and a query
answered with the envelope, after `k` polls that found the task running, ends the polling loop
and `ConvertToSubtitle` with the API error, the failed query being the last request, the session
unchanged and nothing written. -/
theorem nonzero_code_short_circuits (env : Env) (s : Run) (resp : Response) (result : ASRResponse)
    (hbody : resp.body = .ok result) (hcode : result.Code ≠ 0) :
    (env.newRequestError (createResourceRequest env s.b).url = none →
      env.roundTrip s.sent (createResourceRequest env s.b) = .ok resp →
      Upload env s = (.err (apiError result), s.send (createResourceRequest env s.b))) ∧
    (env.newRequestError (commitRequest env s.b).url = none →
      env.roundTrip s.sent (commitRequest env s.b) = .ok resp →
      commitUpload env s = (.err (apiError result), s.send (commitRequest env s.b))) ∧
    (env.newRequestError (createTaskRequest env s.b).url = none →
      env.roundTrip s.sent (createTaskRequest env s.b) = .ok resp →
      CreateTask env s = (.err (apiError result), s.send (createTaskRequest env s.b))) ∧
    (env.newRequestError (queryRequest env s.b).url = none →
      env.roundTrip s.sent (queryRequest env s.b) = .ok resp →
      QueryResult env s = (.err (apiError result), s.send (queryRequest env s.b))) ∧
    (apiError result).Error = "API error: " ++ fmtD result.Code ++ " - " ++ result.Message ∧
    (GoError.wrap "commit upload failed: " (apiError result)).Error =
      "commit upload failed: " ++ ("API error: " ++ fmtD result.Code ++ " - " ++ result.Message) ∧
    (∀ req : Request, (s.send req).b = s.b ∧ (s.send req).sent = s.sent ++ [req] ∧
      (s.send req).written = s.written) ∧
    (∀ (s0 : Run) (resp0 : Response) (result0 : ASRResponse) (plan : ResourceCreateResponse),
      env.newRequestError (createResourceRequest env s0.b).url = none →
      env.roundTrip s0.sent (createResourceRequest env s0.b) = .ok resp0 →
      resp0.body = .ok result0 → result0.Code = 0 → result0.Data.asResourceCreate = .ok plan →
      uploadParts env { s0.send (createResourceRequest env s0.b) with b := s0.b.withPlan plan } =
        (.ok (), s) →
      env.newRequestError (commitRequest env s.b).url = none →
      env.roundTrip s.sent (commitRequest env s.b) = .ok resp →
      Upload env s0 =
        (.err (.wrap "commit upload failed: " (apiError result)), s.send (commitRequest env s.b))) ∧
    (∀ (inputFile : String) (options : ConvertOptions) (fuel : Nat) (s1 s2 : Run) (e : GoError),
      options.Format ≠ "" →
      SetData env (Run.start (WithProgress New options.Progress)) inputFile = (.ok (), s1) →
      Upload env s1 = (.err e, s2) →
      ConvertToSubtitle env inputFile [options] fuel = some (.err e, s2)) ∧
    (∀ (inputFile : String) (options : ConvertOptions) (fuel : Nat) (s1 s2 s3 : Run) (e : GoError),
      options.Format ≠ "" →
      SetData env (Run.start (WithProgress New options.Progress)) inputFile = (.ok (), s1) →
      Upload env s1 = (.ok (), s2) → CreateTask env s2 = (.err e, s3) →
      ConvertToSubtitle env inputFile [options] fuel = some (.err e, s3)) ∧
    (∀ (inputFile : String) (options : ConvertOptions) (fuel k : Nat) (s1 s2 s3 : Run)
        (taskID : String),
      options.Format ≠ "" →
      (options.Interval.nonPositive = true ∨ 0 < options.Interval.duration) →
      SetData env (Run.start (WithProgress New options.Progress)) inputFile = (.ok (), s1) →
      Upload env s1 = (.ok (), s2) → CreateTask env s2 = (.ok taskID, s3) →
      reportTaskCreated options taskID s3 = s →
      (∀ j, j ≤ k → env.ctxDone (s.sent.length + j) = false) →
      env.newRequestError (queryRequest env s.b).url = none →
      (∀ j, j < k → ∃ (resp1 : Response) (result1 : ASRResponse) (tr : TaskResultResponse),
        env.roundTrip (s.sent ++ List.replicate j (queryRequest env s.b)) (queryRequest env s.b) =
          .ok resp1 ∧
        resp1.body = .ok result1 ∧ result1.Code = 0 ∧ result1.Data.asTaskResult = .ok tr ∧
        tr.State = StateRunning) →
      env.roundTrip (s.sent ++ List.replicate k (queryRequest env s.b)) (queryRequest env s.b) =
        .ok resp →
      k < fuel →
      ∃ final : Run,
        pollLoop env fuel s = some (.err (apiError result), final) ∧
        ConvertToSubtitle env inputFile [options] fuel = some (.err (apiError result), final) ∧
        final.sent = s.sent ++ List.replicate (k + 1) (queryRequest env s.b) ∧
        final.b = s.b ∧ final.written = s.written) := by
  refine ⟨?_, ?_, ?_, ?_, rfl, rfl, fun _ => ⟨rfl, rfl, rfl⟩, ?_, ?_, ?_, ?_⟩
  · intro hreq hresp
    simp [Upload, hreq, hresp, hbody, hcode]
  · intro hreq hresp
    simp [commitUpload, hreq, hresp, hbody, hcode]
  · intro hreq hresp
    simp [CreateTask, hreq, hresp, hbody, hcode]
  · intro hreq hresp
    simp [QueryResult, hreq, hresp, hbody, hcode]
  · intro s0 resp0 result0 plan hreq0 hresp0 hbody0 hcode0 hdata0 hparts hreq hresp
    rw [Upload_after_plan env s0 resp0 result0 plan hreq0 hresp0 hbody0 hcode0 hdata0, hparts]
    simp [commitUpload, hreq, hresp, hbody, hcode]
  · intro inputFile options fuel s1 s2 e hfmt hset hup
    exact ConvertToSubtitle_stops_after_Upload env inputFile options fuel s1 s2 e hset hup hfmt
  · intro inputFile options fuel s1 s2 s3 e hfmt hset hup htask
    exact ConvertToSubtitle_stops_after_CreateTask env inputFile options fuel s1 s2 s3 e hset hup
      htask hfmt
  · intro inputFile options fuel k s1 s2 s3 taskID hfmt hdur hset hup htask hs hctx hreq hrun
      hresp hfuel
    obtain ⟨f1, f2, _, f4, _⟩ := afterRunning_facts env s k
    have hq : QueryResult env (afterRunning env s k) =
        (.err (apiError result), (afterRunning env s k).send (queryRequest env s.b)) := by
      have hreqk : env.newRequestError (queryRequest env (afterRunning env s k).b).url = none := by
        rw [f2]
        exact hreq
      have hrespk : env.roundTrip (afterRunning env s k).sent
          (queryRequest env (afterRunning env s k).b) = .ok resp := by
        rw [f1, f2]
        exact hresp
      have hq0 : QueryResult env (afterRunning env s k) =
          (.err (apiError result),
            (afterRunning env s k).send (queryRequest env (afterRunning env s k).b)) := by
        simp [QueryResult, hreqk, hrespk, hbody, hcode]
      rw [f2] at hq0
      exact hq0
    have hloop := (pollLoop_error_after_running env s k hctx hreq hrun _ _ hq fuel hfuel).1
    refine ⟨(afterRunning env s k).send (queryRequest env s.b), hloop, ?_, ?_, ?_, ?_⟩
    · rw [ConvertToSubtitle_polls env inputFile options fuel s1 s2 s3 taskID hfmt hdur hset hup
        htask, hs, hloop]
    · simp [Run.send, f1, List.replicate_succ']
    · simp [Run.send, f2]
    · simp [Run.send, f4]

/-- Witness of C6: a service that answers the create-resource request with code 1001 and the
message `denied` makes `Upload` return `API error: 1001 - denied` after that single request; one
that answers the commit so makes `Upload` fail after the commit request; one that answers the
query so makes `ConvertToSubtitle` fail after the first query, with nothing written. -/
theorem nonzero_code_short_circuits_witness :
    Upload (scriptedEnv testPlan APIReqUpload 0) (Run.start { New with soundData := testData }) =
      (.err (.text "API error: 1001 - denied"),
        (Run.start { New with soundData := testData }).send
          (createResourceRequest (scriptedEnv testPlan APIReqUpload 0) { New with soundData := testData })) ∧
    (Upload (scriptedEnv testPlan APICommitUpload 0) (Run.start { New with soundData := testData })).1 =
      .err (.wrap "commit upload failed: " (.text "API error: 1001 - denied")) ∧
    (Upload (scriptedEnv testPlan APICommitUpload 0)
      (Run.start { New with soundData := testData })).2.sent.map (fun req => req.method) =
      ["POST", "PUT", "POST"] ∧
    (ConvertToSubtitle (scriptedEnv testPlan (APIQueryResult ++ "?model_id=7&task_id=test-task") 0)
      "/tmp/test.mp3" [DefaultConvertOptions] 1).map (fun r => (r.1, r.2.sent.map (fun req => req.method), r.2.written)) =
      some (.err (.text "API error: 1001 - denied"), ["POST", "PUT", "POST", "POST", "GET"], []) :=
  ⟨(nonzero_code_short_circuits (scriptedEnv testPlan APIReqUpload 0)
    (Run.start { New with soundData := testData })
    { etag := "", body := .ok { Code := 1001, Message := "denied", Data := emptyData } }
    { Code := 1001, Message := "denied", Data := emptyData } rfl (by decide)).1 rfl rfl,
    by decide, by decide, by decide⟩

/-! ## Part upload: tags and byte ranges -/

/-- C7: when `uploadParts` succeeds on a session with `N` part URLs, it has issued `N`
requests, the `i`-th being the `PUT` to the `i`-th URL, and it has appended `N` tags to the tag
list, the `i`-th being the non-empty `Etag` header answered to the `i`-th request; the commit
request carries the tag list joined by commas, so for a tag list that was empty before the
upload (every session before its first upload) the list has length `N` and the commit request
carries exactly the collected tags in request order; an answer without `Etag` header belongs to
the last request issued and makes `uploadParts` fail, and a failure of `uploadParts` makes
`Upload` fail without a commit request. -/
theorem uploadParts_tags_in_request_order (env : Env) (s : Run) :
    (∀ s1 : Run, uploadParts env s = (.ok (), s1) →
      ∃ (puts : List Request) (tags : List String),
        s1.sent = s.sent ++ puts ∧ s1.b.etags = s.b.etags ++ tags ∧
        puts.length = s.b.uploadURLs.length ∧ tags.length = s.b.uploadURLs.length ∧
        (∀ i, i < s.b.uploadURLs.length → ∃ (req : Request) (tag : String),
          puts[i]? = some req ∧ tags[i]? = some tag ∧ req.method = "PUT" ∧
          s.b.uploadURLs[i]? = some req.url ∧
          etagOf env (s.sent ++ puts.take i) req = some tag ∧ tag ≠ "") ∧
        (commitRequest env s1.b).body =
          .form [("in_boss_key", s.b.inBossKey), ("resource_id", s.b.resourceID),
                 ("etags", stringsJoin (s.b.etags ++ tags) ","), ("upload_id", s.b.uploadID),
                 ("model_id", "7")] ∧
        (env.newRequestError (commitRequest env s1.b).url = none →
          (commitUpload env s1).2.sent = s1.sent ++ [commitRequest env s1.b]) ∧
        (s.b.etags = [] → s1.b.etags = tags ∧ s1.b.etags.length = s.b.uploadURLs.length ∧
          (commitRequest env s1.b).body =
            .form [("in_boss_key", s.b.inBossKey), ("resource_id", s.b.resourceID),
                   ("etags", stringsJoin tags ","), ("upload_id", s.b.uploadID),
                   ("model_id", "7")])) ∧
    (∃ puts : List Request, (uploadParts env s).2.sent = s.sent ++ puts ∧
      ∀ (pre : List Request) (req : Request) (post : List Request),
        puts = pre ++ req :: post → etagOf env (s.sent ++ pre) req = some "" →
        post = [] ∧ (uploadParts env s).1 =
          .err (.text ("no etag in response for part " ++ fmtD (pre.length : Int)))) ∧
    (∀ (s0 : Run) (resp : Response) (result : ASRResponse) (plan : ResourceCreateResponse)
        (e : GoError) (s3 : Run),
      env.newRequestError (createResourceRequest env s0.b).url = none →
      env.roundTrip s0.sent (createResourceRequest env s0.b) = .ok resp →
      resp.body = .ok result → result.Code = 0 → result.Data.asResourceCreate = .ok plan →
      s = { s0.send (createResourceRequest env s0.b) with b := s0.b.withPlan plan } →
      uploadParts env s = (.err e, s3) →
      Upload env s0 = (.err (.wrap "upload parts failed: " e), s3)) := by
  refine ⟨?_, ?_, ?_⟩
  · intro s1 hok
    obtain ⟨puts, tags, i1, i2, _, _, i5, i6, _⟩ := uploadParts_trace env s
    rw [hok] at i1 i2 i6
    obtain ⟨hputs, htags⟩ := i6 rfl
    simp only at i1 i2
    have hlen : puts.length = s.b.uploadURLs.length := by
      rw [hputs, plannedParts_length]
    have hetags : s1.b.etags = s.b.etags ++ tags := by
      rw [i2]
    have htlen : tags.length = s.b.uploadURLs.length := by
      rw [htags, collectTags_length, hlen]
    have hform : (commitRequest env s1.b).body =
        .form [("in_boss_key", s.b.inBossKey), ("resource_id", s.b.resourceID),
               ("etags", stringsJoin (s.b.etags ++ tags) ","), ("upload_id", s.b.uploadID),
               ("model_id", "7")] := by
      rw [i2]
      rfl
    refine ⟨puts, tags, i1, hetags, hlen, htlen, ?_, hform, ?_, ?_⟩
    · intro i hi
      have hi1 : i < puts.length := by omega
      have hi2 : i < tags.length := by omega
      have hreq : puts[i]? = some puts[i] := List.getElem?_eq_getElem hi1
      have htag : tags[i]? = some tags[i] := List.getElem?_eq_getElem hi2
      have hurl : s.b.uploadURLs[i]? = some s.b.uploadURLs[i] := List.getElem?_eq_getElem hi
      have hplanned := plannedParts_getElem? s.b 0 s.b.uploadURLs i
      rw [hurl, ← hputs, hreq] at hplanned
      simp only [Option.map_some', Option.some.injEq] at hplanned
      have hcollect := collectTags_getElem? env s.sent puts i
      rw [← htags, htag, hreq] at hcollect
      simp only [Option.map_some', Option.some.injEq] at hcollect
      have hne : tags[i] ≠ "" := i5 _ (List.getElem_mem hi2)
      refine ⟨puts[i], tags[i], hreq, htag, ?_, ?_, ?_, hne⟩
      · rw [hplanned]
        rfl
      · rw [hurl, hplanned]
        rfl
      · cases h : etagOf env (s.sent ++ List.take i puts) puts[i] with
        | none =>
          rw [h] at hcollect
          exact absurd hcollect hne
        | some tag =>
          rw [h] at hcollect
          simp only [Option.getD_some] at hcollect
          rw [hcollect]
    · intro hreq
      simp [commitUpload, hreq]
      split <;> (try split) <;> (try split) <;> (try split) <;> simp [Run.send]
    · intro hempty
      rw [hempty] at hetags hform
      simp only [List.nil_append] at hetags hform
      exact ⟨hetags, by rw [hetags, htlen], hform⟩
  · obtain ⟨puts, tags, i1, _, _, _, _, _, i7⟩ := uploadParts_trace env s
    exact ⟨puts, i1, i7⟩
  · intro s0 resp result plan e s3 hreq hresp hbody hcode hdata hs hup
    rw [Upload_after_plan env s0 resp result plan hreq hresp hbody hcode hdata, ← hs, hup]

/-- C8: for a payload of length `L > 0` held in memory, a per-part size `p > 0` and a plan of
`N = ceil(L / p)` URLs, the bounds computed for part `i < N` are `i * p` and
`min ((i + 1) * p) L`, and the slice between them is the `i`-th chunk of the payload. The
requests issued by `uploadParts` are, in URL order, `PUT`s to the URLs of the plan, and the body
of the `i`-th one is the byte body holding the `i`-th chunk; when the upload succeeds there are
`N` of them and their bodies, concatenated in URL order, are the payload. Every chunk but the
last has `p` bytes, the last has between 1 and `p` bytes. -/
theorem uploadParts_sends_contiguous_ranges (env : Env) (s : Run) (p : Nat)
    (hL : 0 < s.b.soundData.length) (hmax : s.b.soundData.length ≤ maxAlloc)
    (hp : 0 < p) (hp63 : (p : Int) < 2 ^ 63) (hper : s.b.perSize = (p : Int))
    (hN : s.b.uploadURLs.length = (s.b.soundData.length + p - 1) / p) :
    (∀ i, i < s.b.uploadURLs.length →
      partBounds s.b i =
        (((i * p : Nat) : Int), ((min ((i + 1) * p) s.b.soundData.length : Nat) : Int)) ∧
      goSlice s.b.soundData (partBounds s.b i).1 (partBounds s.b i).2 =
        some (chunk p s.b.soundData i) ∧
      chunk p s.b.soundData i =
        (s.b.soundData.take (min ((i + 1) * p) s.b.soundData.length)).drop (i * p)) ∧
    (∃ puts : List Request,
      (uploadParts env s).2.sent = s.sent ++ puts ∧
      puts.length ≤ s.b.uploadURLs.length ∧
      (∀ (i : Nat) (req : Request), puts[i]? = some req →
        ∃ url, s.b.uploadURLs[i]? = some url ∧
          req = { method := "PUT", url := url, contentType := "",
                  body := .bytes (chunk p s.b.soundData i) }) ∧
      ((uploadParts env s).1 = .ok () →
        puts.length = s.b.uploadURLs.length ∧
        puts.map (fun req => req.url) = s.b.uploadURLs ∧
        puts.map (fun req => req.body) =
          (List.range s.b.uploadURLs.length).map (fun i => Body.bytes (chunk p s.b.soundData i)) ∧
        (puts.map Request.bytes).flatten = s.b.soundData)) ∧
    (∀ i, i + 1 < s.b.uploadURLs.length → (chunk p s.b.soundData i).length = p) ∧
    (1 ≤ (chunk p s.b.soundData (s.b.uploadURLs.length - 1)).length ∧
      (chunk p s.b.soundData (s.b.uploadURLs.length - 1)).length ≤ p) ∧
    ((List.range s.b.uploadURLs.length).map (chunk p s.b.soundData)).flatten = s.b.soundData := by
  obtain ⟨hNpos, hlast, hcover⟩ := ceil_parts _ p _ hp hL hN
  have hslice : ∀ i, i < s.b.uploadURLs.length → partSlice s.b i = chunk p s.b.soundData i :=
    fun i hi => (goSlice_partBounds s.b p _ i hp63 hper hmax hlast hi).2
  have hplan : plannedParts s.b 0 s.b.uploadURLs =
      List.zipWith partRequest s.b.uploadURLs
        ((List.range s.b.uploadURLs.length).map (chunk p s.b.soundData)) := by
    rw [plannedParts_eq_zipWith, ← List.range_eq_range']
    congr 1
    apply List.map_congr_left
    intro i hi
    exact hslice i (List.mem_range.mp hi)
  have hflat := chunks_flatten p _ _ hcover
  have hlen : s.b.uploadURLs.length =
      ((List.range s.b.uploadURLs.length).map (chunk p s.b.soundData)).length := by simp
  refine ⟨?_, ?_, ?_, ?_, hflat⟩
  · intro i hi
    refine ⟨partBounds_eq s.b p _ i hp63 hper hmax hlast hi,
      (goSlice_partBounds s.b p _ i hp63 hper hmax hlast hi).1, ?_⟩
    exact (take_min_drop _ _ _).symm
  · obtain ⟨puts, tags, i1, _, i3, _, _, i6, _⟩ := uploadParts_trace env s
    refine ⟨puts, i1, ?_, ?_, ?_⟩
    · have := i3.length_le
      rw [plannedParts_length] at this
      exact this
    · intro i req hreq
      obtain ⟨rest, hrest⟩ := i3
      have hi : i < puts.length := by
        by_contra hge
        rw [List.getElem?_eq_none (by omega)] at hreq
        exact absurd hreq (by simp)
      have hget : (plannedParts s.b 0 s.b.uploadURLs)[i]? = some req := by
        rw [← hrest, List.getElem?_append_left hi]
        exact hreq
      rw [plannedParts_getElem?] at hget
      cases hurl : s.b.uploadURLs[i]? with
      | none =>
        rw [hurl] at hget
        exact absurd hget (by simp)
      | some url =>
        rw [hurl] at hget
        simp only [Option.map_some', Option.some.injEq, Nat.zero_add] at hget
        have hiN : i < s.b.uploadURLs.length := by
          by_contra hge
          rw [List.getElem?_eq_none (by omega)] at hurl
          exact absurd hurl (by simp)
        refine ⟨url, rfl, ?_⟩
        rw [← hget, hslice i hiN]
        rfl
    · intro hok
      have hputs : puts = List.zipWith partRequest s.b.uploadURLs
          ((List.range s.b.uploadURLs.length).map (chunk p s.b.soundData)) := by
        rw [← hplan]
        exact (i6 hok).1
      refine ⟨?_, ?_, ?_, ?_⟩
      · rw [hputs]
        simp
      · rw [hputs, map_zipWith_fst partRequest (fun req => req.url) id (fun _ _ => rfl) _ _ hlen,
          List.map_id]
      · rw [hputs, map_zipWith_snd partRequest (fun req => req.body) Body.bytes (fun _ _ => rfl) _ _ hlen,
          List.map_map]
        rfl
      · rw [hputs, map_zipWith_snd partRequest Request.bytes id (fun _ _ => rfl) _ _ hlen,
          List.map_id]
        exact hflat
  · intro i hi
    rw [chunk_length]
    have h1 : (i + 1) * p ≤ (s.b.uploadURLs.length - 1) * p := Nat.mul_le_mul_right p (by omega)
    have h2 : (i + 1) * p = i * p + p := by ring
    omega
  · rw [chunk_length]
    obtain ⟨m, hm⟩ : ∃ m, s.b.uploadURLs.length = m + 1 := ⟨_, (Nat.succ_pred_eq_of_pos hNpos).symm⟩
    rw [hm] at hlast hcover ⊢
    simp only [Nat.add_sub_cancel] at hlast ⊢
    have h2 : (m + 1) * p = m * p + p := by ring
    omega

/-- Witness of C7: three part URLs and a service that answers the `n`-th `PUT` with the tag
`etag-n`: the tag list of a fresh session ends as `etag-1`, `etag-2`, `etag-3`. -/
theorem uploadParts_tags_in_request_order_witness :
    (uploadParts (scriptedEnv testPlan "" 0)
      (Run.start { New with soundData := testData, uploadURLs := ["u0", "u1", "u2"], perSize := 4 })).2.b.etags =
      ["etag-1", "etag-2", "etag-3"] ∧
    ∃ (puts : List Request) (tags : List String),
      (uploadParts (scriptedEnv testPlan "" 0)
        (Run.start { New with soundData := testData, uploadURLs := ["u0", "u1", "u2"], perSize := 4 })).2.sent =
        [] ++ puts ∧
      (uploadParts (scriptedEnv testPlan "" 0)
        (Run.start { New with soundData := testData, uploadURLs := ["u0", "u1", "u2"], perSize := 4 })).2.b.etags =
        [] ++ tags ∧
      puts.length = 3 ∧ tags.length = 3 :=
  ⟨by decide,
    let ⟨puts, tags, h1, h2, h3, h4, _⟩ := (uploadParts_tags_in_request_order (scriptedEnv testPlan "" 0)
      (Run.start { New with soundData := testData, uploadURLs := ["u0", "u1", "u2"], perSize := 4 })).1
      (uploadParts (scriptedEnv testPlan "" 0)
        (Run.start { New with soundData := testData, uploadURLs := ["u0", "u1", "u2"], perSize := 4 })).2
      (by decide)
    ⟨puts, tags, h1, h2, h3, h4⟩⟩

/-- Witness of C8: a payload of 9 bytes, parts of 4 bytes and 3 URLs: the upload succeeds and
the three requests are `PUT`s whose bodies are bytes 0-3, 4-7 and 8 of the payload. -/
theorem uploadParts_sends_contiguous_ranges_witness :
    (uploadParts (scriptedEnv testPlan "" 0)
      (Run.start { New with soundData := testData, uploadURLs := ["u0", "u1", "u2"], perSize := 4 })).1 =
      .ok () ∧
    (uploadParts (scriptedEnv testPlan "" 0)
      (Run.start { New with soundData := testData, uploadURLs := ["u0", "u1", "u2"], perSize := 4 })).2.sent =
      [{ method := "PUT", url := "u0", contentType := "", body := .bytes [116, 101, 115, 116] },
       { method := "PUT", url := "u1", contentType := "", body := .bytes [32, 100, 97, 116] },
       { method := "PUT", url := "u2", contentType := "", body := .bytes [97] }] ∧
    ∃ puts : List Request,
      (uploadParts (scriptedEnv testPlan "" 0)
        (Run.start { New with soundData := testData, uploadURLs := ["u0", "u1", "u2"],
                              perSize := 4 })).2.sent = [] ++ puts ∧
      puts.length = 3 ∧
      puts.map (fun req => req.body) =
        (List.range 3).map (fun i => Body.bytes (chunk 4 testData i)) ∧
      (puts.map Request.bytes).flatten = testData :=
  ⟨by decide, by decide,
    let ⟨puts, h1, _, _, h4⟩ := (uploadParts_sends_contiguous_ranges (scriptedEnv testPlan "" 0)
      (Run.start { New with soundData := testData, uploadURLs := ["u0", "u1", "u2"], perSize := 4 }) 4
      (by decide) (by decide) (by decide) (by decide) rfl (by decide)).2.1
    ⟨puts, h1, (h4 (by decide)).1, (h4 (by decide)).2.2.1, (h4 (by decide)).2.2.2⟩⟩

/-! ## The media loader -/

/-- C9, as the claim states it, fails: for the input `http://media.example/clip.mov/`, which
ends in a separator, `SetData` succeeds through the transcoder and names the sound
`clip.mov.aac`; the base name `clip.mov` with its extension replaced by `.aac` is `clip.aac`. -/
theorem SetData_trailing_separator_counterexample :
    (SetData streamEnv (Run.start New) "http://media.example/clip.mov/").1 = .ok () ∧
    (∀ format ∈ ["flac", "aac", "m4a", "mp3", "wav"],
      ToLower streamEnv.lowerTable (Ext "http://media.example/clip.mov/") ≠ "." ++ format) ∧
    Base "http://media.example/clip.mov/" = "clip.mov" ∧
    Ext "http://media.example/clip.mov/" = "" ∧
    withoutExt (Base "http://media.example/clip.mov/") ++ ".aac" = "clip.aac" ∧
    (SetData streamEnv (Run.start New) "http://media.example/clip.mov/").2.b.soundFormat = "aac" ∧
    (SetData streamEnv (Run.start New) "http://media.example/clip.mov/").2.b.soundName =
      "clip.mov.aac" ∧
    (SetData streamEnv (Run.start New) "http://media.example/clip.mov/").2.b.soundName ≠
      withoutExt (Base "http://media.example/clip.mov/") ++ ".aac" := by
  refine ⟨?_, ?_, ?_, ?_, ?_, ?_, ?_, ?_⟩ <;> decide

/-- C9 (amended): when `SetData` succeeds, the format tag is one of flac, aac, m4a, mp3, wav. If
the lower-cased extension of the path is one of these five, the payload is the content of the
file as read, the tag is that extension and the sound name is the base name of the path;
otherwise the tag is `aac`, the payload is the non-empty output of the transcoder, and the sound
name is the base name with the extension of the whole path cut off its end, if it ends so, and
`.aac` appended: for a path that does not end in a separator this is the base name with its own
extension replaced by `.aac`. -/
theorem SetData_format_tag (env : Env) (s s1 : Run) (filePath : String)
    (hok : SetData env s filePath = (.ok (), s1)) :
    s1.b.soundFormat ∈ ["flac", "aac", "m4a", "mp3", "wav"] ∧
    (∀ format ∈ ["flac", "aac", "m4a", "mp3", "wav"],
      ToLower env.lowerTable (Ext filePath) = "." ++ format →
      env.readFile filePath = .ok s1.b.soundData ∧ s1.b.soundFormat = format ∧
      s1.b.soundName = Base filePath) ∧
    ((∀ format ∈ ["flac", "aac", "m4a", "mp3", "wav"],
      ToLower env.lowerTable (Ext filePath) ≠ "." ++ format) →
      s1.b.soundFormat = "aac" ∧
      s1.b.soundName = TrimSuffix (Base filePath) (Ext filePath) ++ ".aac" ∧
      env.ffmpeg filePath = .finished s1.b.soundData ∧ s1.b.soundData ≠ [] ∧
      (∀ (c : Char) (rev : List Char), filePath.data.reverse = c :: rev → c ≠ '/' →
        s1.b.soundName = withoutExt (Base filePath) ++ ".aac")) ∧
    (∀ (c : Char) (rev : List Char), filePath.data.reverse = c :: rev → c ≠ '/' →
      TrimSuffix (Base filePath) (Ext filePath) = withoutExt (Base filePath)) := by
  have hlast : ∀ (c : Char) (rev : List Char), filePath.data.reverse = c :: rev → c ≠ '/' →
      TrimSuffix (Base filePath) (Ext filePath) = withoutExt (Base filePath) := by
    intro c rev hrev hc
    rw [Ext_Base filePath c rev hrev hc]
    exact TrimSuffix_Ext _
  unfold SetData processMedia at hok
  simp only at hok
  cases hfind : processMedia.findFormat (ToLower env.lowerTable (Ext filePath)) SupportedInputFormats with
  | some format =>
    obtain ⟨hmem, hdot⟩ := findFormat_some _ _ _ hfind
    rw [hfind] at hok
    simp only at hok
    cases hread : env.readFile filePath with
    | error e =>
      rw [hread] at hok
      simp at hok
    | ok data =>
      rw [hread] at hok
      simp only [Prod.mk.injEq, true_and] at hok
      subst hok
      refine ⟨hmem, ?_, ?_, hlast⟩
      · intro format2 _ h2
        have : format = format2 := dot_append_cancel _ _ (hdot.trans h2)
        subst this
        exact ⟨rfl, rfl, rfl⟩
      · intro hnone
        exact absurd hdot.symm (hnone format hmem)
  | none =>
    have hnone := findFormat_none _ _ hfind
    rw [hfind] at hok
    simp only at hok
    cases hff : env.ffmpeg filePath with
    | pipeFailed e =>
      rw [hff] at hok
      simp at hok
    | runFailed e =>
      rw [hff] at hok
      simp at hok
    | finished stdout =>
      rw [hff] at hok
      simp only at hok
      by_cases hz : stdout.length = 0
      · simp [hz] at hok
      · simp only [hz, if_false, Prod.mk.injEq, true_and] at hok
        have hb := congrArg Run.b hok
        rw [reportProgress_b] at hb
        have hne : stdout ≠ [] := fun h => hz (by simp [h])
        refine ⟨?_, ?_, ?_, hlast⟩
        · rw [← hb]
          simp
        · intro format hmem h2
          exact absurd h2.symm (hnone format hmem)
        · intro _
          rw [← hb]
          exact ⟨rfl, rfl, rfl, hne, fun c rev hrev hc => by
            show TrimSuffix (Base filePath) (Ext filePath) ++ ".aac" = _
            rw [hlast c rev hrev hc]⟩

/-- Witness of C9: the file `test.mp3` of `TestBcutASR_SetData`, holding `test data`, gives the
sound name `test.mp3` and the format `mp3`; an input with the extension `.MOV` goes through the
transcoder and gives the format `aac` and the sound name `clip.aac`. -/
theorem SetData_format_tag_witness :
    ((SetData (scriptedEnv testPlan "" 0) (Run.start New) "/tmp/test.mp3").2.b.soundName = "test.mp3" ∧
      (SetData (scriptedEnv testPlan "" 0) (Run.start New) "/tmp/test.mp3").2.b.soundFormat = "mp3" ∧
      (SetData (scriptedEnv testPlan "" 0) (Run.start New) "/tmp/test.mp3").2.b.soundData = testData) ∧
    (SetData (scriptedEnv testPlan "" 0) (Run.start New) "/tmp/test.mp3").2.b.soundFormat ∈
      ["flac", "aac", "m4a", "mp3", "wav"] ∧
    ((SetData (scriptedEnv testPlan "" 0) (Run.start New) "/tmp/clip.MOV").2.b.soundFormat = "aac" ∧
      (SetData (scriptedEnv testPlan "" 0) (Run.start New) "/tmp/clip.MOV").2.b.soundName =
        TrimSuffix (Base "/tmp/clip.MOV") (Ext "/tmp/clip.MOV") ++ ".aac" ∧
      (scriptedEnv testPlan "" 0).ffmpeg "/tmp/clip.MOV" =
        .finished (SetData (scriptedEnv testPlan "" 0) (Run.start New) "/tmp/clip.MOV").2.b.soundData ∧
      (SetData (scriptedEnv testPlan "" 0) (Run.start New) "/tmp/clip.MOV").2.b.soundData ≠ [] ∧
      (∀ (c : Char) (rev : List Char), "/tmp/clip.MOV".data.reverse = c :: rev → c ≠ '/' →
        (SetData (scriptedEnv testPlan "" 0) (Run.start New) "/tmp/clip.MOV").2.b.soundName =
          withoutExt (Base "/tmp/clip.MOV") ++ ".aac")) ∧
    (SetData (scriptedEnv testPlan "" 0) (Run.start New) "/tmp/clip.MOV").2.b.soundName = "clip.aac" :=
  ⟨by decide,
    (SetData_format_tag (scriptedEnv testPlan "" 0) (Run.start New)
      (SetData (scriptedEnv testPlan "" 0) (Run.start New) "/tmp/test.mp3").2 "/tmp/test.mp3"
      (by decide)).1,
    (SetData_format_tag (scriptedEnv testPlan "" 0) (Run.start New)
      (SetData (scriptedEnv testPlan "" 0) (Run.start New) "/tmp/clip.MOV").2 "/tmp/clip.MOV"
      (by decide)).2.2.1 (by decide),
    by decide⟩

/-! ## The polling loop of `ConvertToSubtitle` -/

/-- C10: in the polling loop of `ConvertToSubtitle`, when the context is not done and the
service reports the task running on the first `k` queries, the loop is still polling after `k`
rounds; if query `k + 1` reports the task complete with a result text that decodes, the loop
ends there with the decoded result, having issued exactly `k + 1` queries and handed exactly one
text to the decoder, and having written nothing; if query `k + 1` returns an error (state failed
included), the loop ends there with that error. `ConvertToSubtitle` enters this loop once the
task has been created, when the ticker can be made (an interval that is at most zero, replaced
by 30 seconds, or one converted to a positive duration), and it ends as the loop ends: it
returns the error of the loop without writing output. With an interval converted to a duration
that is not positive there is no loop: `time.NewTicker` panics before the first query. -/
theorem pollLoop_ends_at_complete (env : Env) (s : Run) (k : Nat)
    (hctx : ∀ j, j ≤ k → env.ctxDone (s.sent.length + j) = false)
    (hreq : env.newRequestError (queryRequest env s.b).url = none)
    (hrun : ∀ j, j < k → ∃ (resp : Response) (result : ASRResponse) (tr : TaskResultResponse),
      env.roundTrip (s.sent ++ List.replicate j (queryRequest env s.b)) (queryRequest env s.b) = .ok resp ∧
      resp.body = .ok result ∧ result.Code = 0 ∧ result.Data.asTaskResult = .ok tr ∧
      tr.State = StateRunning) :
    (∀ fuel, fuel ≤ k → pollLoop env fuel s = none) ∧
    (∀ (resp : Response) (result : ASRResponse) (tr : TaskResultResponse) (parsed : ASRResult),
      env.roundTrip (s.sent ++ List.replicate k (queryRequest env s.b)) (queryRequest env s.b) = .ok resp →
      resp.body = .ok result → result.Code = 0 → result.Data.asTaskResult = .ok tr →
      tr.State = StateComplete → env.unmarshalResult tr.Result = .ok parsed →
      ∀ fuel, k < fuel → ∃ final : Run,
        pollLoop env fuel s = some (.ok parsed, final) ∧
        final.sent = s.sent ++ List.replicate (k + 1) (queryRequest env s.b) ∧
        final.parses = s.parses ++ [tr.Result] ∧ final.b = s.b ∧ final.written = s.written) ∧
    (∀ (e : GoError) (se : Run), QueryResult env (afterRunning env s k) = (.err e, se) →
      ∀ fuel, k < fuel → pollLoop env fuel s = some (.err e, se) ∧ se.written = s.written) ∧
    (∀ (resp : Response) (result : ASRResponse) (tr : TaskResultResponse),
      env.roundTrip (s.sent ++ List.replicate k (queryRequest env s.b)) (queryRequest env s.b) = .ok resp →
      resp.body = .ok result → result.Code = 0 → result.Data.asTaskResult = .ok tr →
      tr.State = StateError →
      QueryResult env (afterRunning env s k) =
        (.err (.text ("task failed: " ++ tr.Remark)),
          (afterRunning env s k).send (queryRequest env s.b))) ∧
    (∀ (inputFile : String) (options : ConvertOptions) (fuel : Nat) (s1 s2 s3 : Run)
        (taskID : String),
      options.Format ≠ "" →
      (options.Interval.nonPositive = true ∨ 0 < options.Interval.duration) →
      SetData env (Run.start (WithProgress New options.Progress)) inputFile = (.ok (), s1) →
      Upload env s1 = (.ok (), s2) → CreateTask env s2 = (.ok taskID, s3) →
      ConvertToSubtitle env inputFile [options] fuel =
        match pollLoop env fuel (reportTaskCreated options taskID s3) with
        | none => none
        | some (.err e, s5) => some (.err e, s5)
        | some (.panic msg, s5) => some (.panic msg, s5)
        | some (.ok result, s5) => some (writeOutput env options inputFile result s5)) ∧
    (∀ (inputFile : String) (options : ConvertOptions) (fuel : Nat) (s1 s2 s3 s5 : Run)
        (taskID : String) (e : GoError),
      options.Format ≠ "" →
      (options.Interval.nonPositive = true ∨ 0 < options.Interval.duration) →
      SetData env (Run.start (WithProgress New options.Progress)) inputFile = (.ok (), s1) →
      Upload env s1 = (.ok (), s2) → CreateTask env s2 = (.ok taskID, s3) →
      pollLoop env fuel (reportTaskCreated options taskID s3) = some (.err e, s5) →
      ConvertToSubtitle env inputFile [options] fuel = some (.err e, s5) ∧
      s5.written = (reportTaskCreated options taskID s3).written) ∧
    (∀ (inputFile : String) (options : ConvertOptions) (fuel : Nat) (s1 s2 s3 : Run)
        (taskID : String),
      options.Format ≠ "" →
      options.Interval.nonPositive = false → options.Interval.duration ≤ 0 →
      SetData env (Run.start (WithProgress New options.Progress)) inputFile = (.ok (), s1) →
      Upload env s1 = (.ok (), s2) → CreateTask env s2 = (.ok taskID, s3) →
      ConvertToSubtitle env inputFile [options] fuel =
        some (.panic "non-positive interval for NewTicker", reportTaskCreated options taskID s3) ∧
      (reportTaskCreated options taskID s3).sent = s3.sent) := by
  obtain ⟨hshift, hnone⟩ := pollLoop_while_running env k s (fun j hj => hctx j (by omega)) hreq hrun
  obtain ⟨f1, f2, f3, f4, _⟩ := afterRunning_facts env s k
  have hc : env.ctxDone (afterRunning env s k).sent.length = false := by
    rw [f1]
    simpa using hctx k (Nat.le_refl k)
  have hreqk : env.newRequestError (queryRequest env (afterRunning env s k).b).url = none := by
    rw [f2]
    exact hreq
  refine ⟨hnone, ?_, ?_, ?_, ?_, ?_, ?_⟩
  · intro resp result tr parsed hresp hbody hcode hdata hstate hparse fuel hfuel
    obtain ⟨m, rfl⟩ : ∃ m, fuel = k + (m + 1) := ⟨fuel - k - 1, by omega⟩
    have hq := QueryResult_of_envelope env (afterRunning env s k) resp result tr hreqk
      (by rw [f1, f2]; exact hresp) hbody hcode hdata
    simp only [QueryResult.switchState, hstate, StateStop, StateRunning, StateError, StateComplete,
      hparse] at hq
    norm_num at hq
    refine ⟨(QueryResult env (afterRunning env s k)).2, ?_, ?_, ?_, ?_, ?_⟩
    · rw [hshift, pollLoop_step env m _ hc, hq]
    · rw [hq]
      simp [reportProgress_sent, Run.send, f1, f2, List.replicate_succ']
    · rw [hq]
      simp [reportProgress_parses, Run.send, f3]
    · rw [hq]
      simp [reportProgress_b, Run.send, f2]
    · rw [hq]
      simp [reportProgress_written, Run.send, f4]
  · intro e se hq fuel hfuel
    obtain ⟨m, rfl⟩ : ∃ m, fuel = k + (m + 1) := ⟨fuel - k - 1, by omega⟩
    have hw := QueryResult_written env (afterRunning env s k)
    rw [hq] at hw
    refine ⟨?_, ?_⟩
    · rw [hshift, pollLoop_step env m _ hc, hq]
    · rw [← f4]
      exact hw
  · intro resp result tr hresp hbody hcode hdata hstate
    rw [QueryResult_of_envelope env (afterRunning env s k) resp result tr hreqk
      (by rw [f1, f2]; exact hresp) hbody hcode hdata]
    simp [QueryResult.switchState, hstate, StateStop, StateRunning, StateError, f2]
  · intro inputFile options fuel s1 s2 s3 taskID hfmt hdur hset hup htask
    exact ConvertToSubtitle_polls env inputFile options fuel s1 s2 s3 taskID hfmt hdur hset hup htask
  · intro inputFile options fuel s1 s2 s3 s5 taskID e hfmt hdur hset hup htask hloop
    refine ⟨?_, pollLoop_written env fuel _ _ _ hloop⟩
    rw [ConvertToSubtitle_polls env inputFile options fuel s1 s2 s3 taskID hfmt hdur hset hup htask,
      hloop]
  · intro inputFile options fuel s1 s2 s3 taskID hfmt hnp hdur hset hup htask
    refine ⟨ConvertToSubtitle_without_ticker env inputFile options fuel s1 s2 s3 taskID hfmt hnp hdur
      hset hup htask, ?_⟩
    unfold reportTaskCreated
    split <;> rfl

/-- Witness of C10: a service that reports the task running twice and then complete makes the
loop issue three queries and decode one result; `ConvertToSubtitle` with the default options
then ends after three queries with one file written, is still polling with fuel 2, and with an
interval that converts to the duration 0 it panics without a query. -/
theorem pollLoop_ends_at_complete_witness :
    (ConvertToSubtitle (scriptedEnv testPlan "" 2) "/tmp/test.mp3" [DefaultConvertOptions] 3).map
        (fun r => (r.1, countMethod "GET" r.2.sent, r.2.parses.length, r.2.written.map Prod.fst)) =
      some (.ok (), 3, 1, ["/tmp/test.srt"]) ∧
    ConvertToSubtitle (scriptedEnv testPlan "" 2) "/tmp/test.mp3" [DefaultConvertOptions] 2 = none ∧
    (ConvertToSubtitle (scriptedEnv testPlan "" 2) "/tmp/test.mp3"
        [{ DefaultConvertOptions with Interval := { nonPositive := false, duration := 0 } }] 3).map
        (fun r => (r.1, countMethod "GET" r.2.sent, r.2.written)) =
      some (.panic "non-positive interval for NewTicker", 0, []) ∧
    ∃ final : Run,
      pollLoop (scriptedEnv testPlan "" 2) 3 (Run.start { New with taskID := "test-task" }) =
        some (.ok testResult, final) ∧
      final.sent = [] ++ List.replicate (2 + 1)
        (queryRequest (scriptedEnv testPlan "" 2) { New with taskID := "test-task" }) ∧
      final.parses = [] ++ [testResultText] ∧ final.b = { New with taskID := "test-task" } ∧
      final.written = [] :=
  ⟨by decide, by decide, by decide,
  (pollLoop_ends_at_complete (scriptedEnv testPlan "" 2) (Run.start { New with taskID := "test-task" }) 2
    (fun _ _ => rfl) rfl
    (fun j hj => by
      have hj2 : j = 0 ∨ j = 1 := by omega
      rcases hj2 with rfl | rfl
      · exact ⟨_, _, _, rfl, rfl, rfl, rfl, rfl⟩
      · exact ⟨_, _, _, rfl, rfl, rfl, rfl, rfl⟩)).2.1
    { etag := "", body := .ok { Code := 0, Message := "", Data := { emptyData with
        asTaskResult := .ok ⟨"test-task", testResultText, "", StateComplete⟩ } } }
    { Code := 0, Message := "", Data := { emptyData with
        asTaskResult := .ok ⟨"test-task", testResultText, "", StateComplete⟩ } }
    ⟨"test-task", testResultText, "", StateComplete⟩ testResult rfl rfl rfl rfl rfl rfl 3 (by decide)⟩

/-! ## The path printed by the command -/

/-- The file that `ConvertToSubtitle` writes is the one `getOutputPath` names for the format the
conversion was given. -/
theorem writeOutput_written (env : Env) (options : ConvertOptions) (inputFile : String)
    (result : ASRResult) (s s1 : Run)
    (h : writeOutput env options inputFile result s = (.ok (), s1)) :
    ∃ output, s1.written =
      s.written ++ [(getOutputPath env inputFile options.OutputPath options.Format, output)] := by
  unfold writeOutput resolveOutputFile at h
  unfold getOutputPath
  by_cases hout : options.OutputPath = ""
  · simp only [hout, ne_eq, not_true_eq_false, if_false] at h ⊢
    cases hr : renderOutput env options result with
    | error e => simp [hr] at h
    | ok output =>
      simp only [hr] at h
      split at h
      · simp at h
      · simp only [Prod.mk.injEq, true_and] at h
        exact ⟨output, by rw [← h]⟩
  · simp only [hout, ne_eq, not_false_eq_true, if_true] at h ⊢
    cases hm : env.mkdirAll (Dir options.OutputPath) with
    | some e => simp [hm] at h
    | none =>
      simp only [hm] at h
      by_cases hd : env.isDir options.OutputPath = true
      · simp only [hd, if_true] at h ⊢
        cases hr : renderOutput env options result with
        | error e => simp [hr] at h
        | ok output =>
          simp only [hr] at h
          split at h
          · simp at h
          · simp only [Prod.mk.injEq, true_and] at h
            exact ⟨output, by rw [← h]⟩
      · simp only [hd, if_false, Bool.false_eq_true] at h ⊢
        cases hr : renderOutput env options result with
        | error e => simp [hr] at h
        | ok output =>
          simp only [hr] at h
          split at h
          · simp at h
          · simp only [Prod.mk.injEq, true_and] at h
            exact ⟨output, by rw [← h]⟩

/-- C11, at the flags `-i /tmp/test.mp3 -f SRT` (and the default `-t 5`): the run succeeds with status 0, the subtitle
file is written to `/tmp/test.srt` and the path printed is `/tmp/test.SRT`; with `-f srt` the
two paths agree. -/
theorem main_prints_unwritten_path :
    (main (scriptedEnv testPlan "" 0) "/tmp/test.mp3" "" "SRT" fiveSeconds 1).map
        (fun e => (e.status, e.message)) =
      some (0, "\n转换完成！输出文件: /tmp/test.SRT\n") ∧
    (main (scriptedEnv testPlan "" 0) "/tmp/test.mp3" "" "SRT" fiveSeconds 1).map
        (fun e => match e with
          | .done printedPath run => (printedPath, run.written.map Prod.fst)
          | _ => ("", [])) =
      some ("/tmp/test.SRT", ["/tmp/test.srt"]) ∧
    (main (scriptedEnv testPlan "" 0) "/tmp/test.mp3" "" "srt" fiveSeconds 1).map
        (fun e => match e with
          | .done printedPath run => (printedPath, run.written.map Prod.fst)
          | _ => ("", [])) =
      some ("/tmp/test.srt", ["/tmp/test.srt"]) := by
  refine ⟨?_, ?_, ?_⟩ <;> decide

/-! ## The tag list after a second upload -/

/-- C12, at a session that has already uploaded once: a second successful `Upload` of a plan
with one part URL leaves two tags in the list, the tag of the first upload in front, and the
commit request of the second upload carries both. -/
theorem second_Upload_keeps_stale_tags :
    (Upload (scriptedEnv testPlan "" 0)
      (Run.start { New with soundName := "test.mp3", soundData := testData, soundFormat := "mp3" })).1 =
      .ok () ∧
    (Upload (scriptedEnv testPlan "" 0)
      (Upload (scriptedEnv testPlan "" 0)
        (Run.start { New with soundName := "test.mp3", soundData := testData,
                              soundFormat := "mp3" })).2).1 = .ok () ∧
    (Upload (scriptedEnv testPlan "" 0)
      (Upload (scriptedEnv testPlan "" 0)
        (Run.start { New with soundName := "test.mp3", soundData := testData,
                              soundFormat := "mp3" })).2).2.b.uploadURLs =
      ["http://test.com/upload"] ∧
    (Upload (scriptedEnv testPlan "" 0)
      (Upload (scriptedEnv testPlan "" 0)
        (Run.start { New with soundName := "test.mp3", soundData := testData,
                              soundFormat := "mp3" })).2).2.b.etags = ["etag-1", "etag-2"] ∧
    ((Upload (scriptedEnv testPlan "" 0)
      (Upload (scriptedEnv testPlan "" 0)
        (Run.start { New with soundName := "test.mp3", soundData := testData,
                              soundFormat := "mp3" })).2).2.sent.getLast?).map (fun r => r.body) =
      some (.form [("in_boss_key", "test-key"), ("resource_id", "test-resource"),
                   ("etags", "etag-1,etag-2"), ("upload_id", "test-upload"), ("model_id", "7")]) := by
  refine ⟨?_, ?_, ?_, ?_, ?_⟩ <;> decide

/-! ## Cancellation between two parts -/

/-- The loop of `uploadParts` on a list of URLs is its first round followed by the loop on the
remaining URLs. -/
theorem uploadParts.loop_cons (env : Env) (t : Nat) (url : String) (rest : List String) (i : Nat)
    (s : Run) :
    uploadParts.loop env t (url :: rest) i s =
      match uploadParts.loop env t [url] i s with
      | (.ok (), s2) => uploadParts.loop env t rest (i + 1) s2
      | r => r := by
  rw [uploadParts.loop, uploadParts.loop]
  by_cases hc : env.ctxDone s.sent.length = true
  · simp [hc]
  by_cases ht : t = 0
  · simp [hc, ht]
  simp only [hc, ht, if_false, Bool.false_eq_true]
  cases hs : goSlice s.b.soundData (partBounds s.b i).1 (partBounds s.b i).2 with
  | none => rfl
  | some part =>
    cases hn : env.newRequestError url with
    | some e => rfl
    | none =>
      simp only
      split
      · rfl
      · split
        · rfl
        · simp [uploadParts.loop]

/-- The loop on two lists of URLs in a row: when the loop on the first list succeeds, the loop
on the second list goes on from its run. -/
theorem uploadParts.loop_append (env : Env) (t : Nat) (pre post : List String) (i : Nat) (s : Run) :
    uploadParts.loop env t (pre ++ post) i s =
      match uploadParts.loop env t pre i s with
      | (.ok (), sm) => uploadParts.loop env t post (i + pre.length) sm
      | r => r := by
  induction pre generalizing i s with
  | nil => simp [uploadParts.loop]
  | cons url pre ih =>
    rw [List.cons_append, uploadParts.loop_cons env t url (pre ++ post),
      uploadParts.loop_cons env t url pre]
    rcases h : uploadParts.loop env t [url] i s with ⟨r, s2⟩
    cases r with
    | ok u =>
      cases u
      simp only [ih]
      have : i + 1 + pre.length = i + (pre.length + 1) := by omega
      simp [this]
    | err e => rfl
    | panic msg => rfl

/-- A round of the loop that goes on has found the context open and has delivered the report of
its part. -/
theorem uploadParts.round_ok (env : Env) (t : Nat) (url : String) (i : Nat) (s s2 : Run)
    (h : uploadParts.loop env t [url] i s = (.ok (), s2)) :
    env.ctxDone s.sent.length = false ∧
    s2.reports = s.reports ++ (if s.b.onProgress then [partReport t i] else []) ∧
    s2.b.onProgress = s.b.onProgress := by
  rw [uploadParts.loop] at h
  by_cases hc : env.ctxDone s.sent.length = true
  · simp [hc] at h
  by_cases ht : t = 0
  · simp [hc, ht] at h
  simp only [hc, ht, if_false, Bool.false_eq_true] at h
  have hrep := reportProgress_reports s .StageUpload
    ((wrapInt (wrapInt ((i : Int) + 1) * 90)).tdiv (t : Int))
    ("正在上传分片 " ++ fmtD (wrapInt ((i : Int) + 1)) ++ "/" ++ fmtD (t : Int))
  have hb := reportProgress_b s .StageUpload
    ((wrapInt (wrapInt ((i : Int) + 1) * 90)).tdiv (t : Int))
    ("正在上传分片 " ++ fmtD (wrapInt ((i : Int) + 1)) ++ "/" ++ fmtD (t : Int))
  generalize reportProgress s .StageUpload ((wrapInt (wrapInt ((i : Int) + 1) * 90)).tdiv (t : Int))
    ("正在上传分片 " ++ fmtD (wrapInt ((i : Int) + 1)) ++ "/" ++ fmtD (t : Int)) = s1 at hrep hb h
  have hrep2 : s1.reports = s.reports ++ (if s.b.onProgress then [partReport t i] else []) := by
    rw [hrep]
    by_cases hp : s.b.onProgress = true
    · simp [hp, partReport]
    · simp [hp]
  refine ⟨by simpa using hc, ?_, ?_⟩
  all_goals
    cases hs : goSlice s.b.soundData (partBounds s.b i).1 (partBounds s.b i).2 with
    | none => simp [hs] at h
    | some part =>
      cases hn : env.newRequestError url with
      | some e => simp [hs, hn] at h
      | none =>
        cases hr : env.roundTrip s1.sent (partRequest url part) with
        | error e => simp [hs, hn, hr] at h
        | ok resp =>
          by_cases he : resp.etag = ""
          · simp [hs, hn, hr, he] at h
          · simp only [hs, hn, hr, he, if_false, uploadParts.loop, Prod.mk.injEq, true_and] at h
            subst h
            first
              | exact hrep2
              | (simp [Run.send, hb])

/-- The reports of a loop that succeeds: one per part, in order. -/
theorem uploadParts.loop_reports (env : Env) (t : Nat) (urls : List String) (i : Nat) (s s1 : Run)
    (h : uploadParts.loop env t urls i s = (.ok (), s1)) :
    s1.reports = s.reports ++
      (if s.b.onProgress then (List.range' i urls.length).map (partReport t) else []) ∧
    s1.b.onProgress = s.b.onProgress := by
  induction urls generalizing i s with
  | nil =>
    simp only [uploadParts.loop, Prod.mk.injEq, true_and] at h
    subst h
    simp
  | cons url rest ih =>
    rw [uploadParts.loop_cons] at h
    rcases hr : uploadParts.loop env t [url] i s with ⟨r, s2⟩
    rw [hr] at h
    cases r with
    | ok u =>
      cases u
      simp only at h
      obtain ⟨_, h2, h3⟩ := uploadParts.round_ok env t url i s s2 hr
      obtain ⟨g1, g2⟩ := ih (i + 1) s2 h
      refine ⟨?_, g2.trans h3⟩
      rw [g1, h2, h3]
      by_cases hp : s.b.onProgress = true
      · simp [hp, List.range'_succ]
      · simp [hp]
    | err e => simp at h
    | panic msg => simp at h

/-- C13: when the parts before part `i` have been uploaded and the context is done at the check
that precedes part `i`, `uploadParts` returns the cancellation error and leaves the run as it was
after the earlier parts: the requests issued are the `i` requests of the earlier parts, the `i`
tags answered to them have been appended, the reports are those of the earlier parts; `Upload` returns that error
wrapped, still recognised by `errors.Is`, and issues no commit request. -/
theorem uploadParts_cancelled_before_part (env : Env) (s sm : Run) (pre : List String)
    (url : String) (rest : List String)
    (hurls : s.b.uploadURLs = pre ++ url :: rest)
    (hpre : uploadParts.loop env s.b.uploadURLs.length pre 0 s = (.ok (), sm))
    (hdone : env.ctxDone sm.sent.length = true) :
    uploadParts env s = (.err .canceled, sm) ∧
    sm.sent = s.sent ++ plannedParts s.b 0 pre ∧
    (plannedParts s.b 0 pre).length = pre.length ∧
    sm.b.etags = s.b.etags ++ collectTags env s.sent (plannedParts s.b 0 pre) ∧
    (collectTags env s.sent (plannedParts s.b 0 pre)).length = pre.length ∧
    sm.reports = s.reports ++
      (if s.b.onProgress then (List.range pre.length).map (partReport s.b.uploadURLs.length)
        else []) ∧
    (GoError.wrap "upload parts failed: " .canceled).Is .canceled = true ∧
    (∀ (s0 : Run) (resp : Response) (result : ASRResponse) (plan : ResourceCreateResponse),
      env.newRequestError (createResourceRequest env s0.b).url = none →
      env.roundTrip s0.sent (createResourceRequest env s0.b) = .ok resp →
      resp.body = .ok result → result.Code = 0 → result.Data.asResourceCreate = .ok plan →
      s = { s0.send (createResourceRequest env s0.b) with b := s0.b.withPlan plan } →
      Upload env s0 = (.err (.wrap "upload parts failed: " .canceled), sm)) := by
  have hloop : uploadParts.loop env s.b.uploadURLs.length s.b.uploadURLs 0 s = (.err .canceled, sm) := by
    conv => lhs; arg 3; rw [hurls]
    rw [uploadParts.loop_append, hpre]
    simp only
    rw [uploadParts.loop]
    simp [hdone]
  have hup : uploadParts env s = (.err .canceled, sm) := by
    unfold uploadParts
    rw [hloop]
  obtain ⟨puts, tags, i1, i2, _, _, _, i6, _⟩ :=
    uploadParts.loop_trace env s.b.uploadURLs.length pre 0 s
  rw [hpre] at i1 i2 i6
  obtain ⟨hputs, htags⟩ := i6 rfl
  simp only at i1 i2
  have hlen : (plannedParts s.b 0 pre).length = pre.length := plannedParts_length _ _ _
  refine ⟨hup, by rw [i1, hputs], hlen, by rw [i2, htags, hputs], ?_, ?_, by decide, ?_⟩
  · rw [collectTags_length, hlen]
  · have := (uploadParts.loop_reports env s.b.uploadURLs.length pre 0 s sm hpre).1
    rw [this, List.range_eq_range']
  · intro s0 resp result plan hreq hresp hbody hcode hdata hs
    rw [Upload_after_plan env s0 resp result plan hreq hresp hbody hcode hdata, ← hs, hup]

/-- Witness of C13: three parts and a context that is done once two requests have been issued:
the upload stops before part 2 with two requests, two tags and two reports. -/
theorem uploadParts_cancelled_before_part_witness :
    uploadParts (cancellingEnv 2)
        (Run.start { New with soundData := testData, uploadURLs := ["u0", "u1", "u2"], perSize := 4,
                              onProgress := true }) =
      (.err .canceled,
        (uploadParts.loop (cancellingEnv 2) 3 ["u0", "u1"] 0
          (Run.start { New with soundData := testData, uploadURLs := ["u0", "u1", "u2"],
                                perSize := 4, onProgress := true })).2) ∧
    (uploadParts (cancellingEnv 2)
        (Run.start { New with soundData := testData, uploadURLs := ["u0", "u1", "u2"], perSize := 4,
                              onProgress := true })).2.sent =
      [partRequest "u0" [116, 101, 115, 116], partRequest "u1" [32, 100, 97, 116]] ∧
    (uploadParts (cancellingEnv 2)
        (Run.start { New with soundData := testData, uploadURLs := ["u0", "u1", "u2"], perSize := 4,
                              onProgress := true })).2.reports = [partReport 3 0, partReport 3 1] :=
  ⟨(uploadParts_cancelled_before_part (cancellingEnv 2)
      (Run.start { New with soundData := testData, uploadURLs := ["u0", "u1", "u2"], perSize := 4,
                            onProgress := true })
      (uploadParts.loop (cancellingEnv 2) 3 ["u0", "u1"] 0
        (Run.start { New with soundData := testData, uploadURLs := ["u0", "u1", "u2"],
                              perSize := 4, onProgress := true })).2
      ["u0", "u1"] "u2" [] rfl (by decide) (by decide)).1,
    by decide, by decide⟩

/-! ## Safety of the slice bounds -/

theorem bounds_first (p L : Int) (hp1 : -2 ^ 63 ≤ p) (hp2 : p < 2 ^ 63) (hL0 : 0 ≤ L) :
    (0 ≤ wrapInt 0 ∧
      wrapInt 0 ≤ (if wrapInt (wrapInt 0 + p) > L then L else wrapInt (wrapInt 0 + p)) ∧
      (if wrapInt (wrapInt 0 + p) > L then L else wrapInt (wrapInt 0 + p)) ≤ L) ↔ 0 ≤ p := by
  unfold wrapInt
  split_ifs <;> omega

theorem bounds_next (p y L : Int) (hp0 : 0 ≤ p) (hp2 : p < 2 ^ 63) (hL : L ≤ 2 ^ 60)
    (hy0 : 0 ≤ y) (hyL : y ≤ L) :
    (0 ≤ wrapInt (y + p) ∧
      wrapInt (y + p) ≤
        (if wrapInt (wrapInt (y + p) + p) > L then L else wrapInt (wrapInt (y + p) + p)) ∧
      (if wrapInt (wrapInt (y + p) + p) > L then L else wrapInt (wrapInt (y + p) + p)) ≤ L) ↔
      y + p ≤ L := by
  unfold wrapInt
  split_ifs <;> omega

theorem sliceSafe_zero (b : BcutASR) (hp1 : -2 ^ 63 ≤ b.perSize) (hp2 : b.perSize < 2 ^ 63) :
    sliceSafe b 0 ↔ 0 ≤ b.perSize := by
  have h := bounds_first b.perSize (b.soundData.length : Int) hp1 hp2 (by omega)
  unfold sliceSafe partBounds
  simpa using h

theorem sliceSafe_succ (b : BcutASR) (i : Nat) (hp0 : 0 ≤ b.perSize) (hp2 : b.perSize < 2 ^ 63)
    (hL : b.soundData.length ≤ maxAlloc)
    (hprev : (i : Int) * b.perSize ≤ (b.soundData.length : Int)) :
    sliceSafe b (i + 1) ↔ ((i + 1 : Nat) : Int) * b.perSize ≤ (b.soundData.length : Int) := by
  have hLi : (b.soundData.length : Int) ≤ 2 ^ 60 := by
    have h : b.soundData.length ≤ 2 ^ 60 := hL
    exact_mod_cast h
  have hy0 : 0 ≤ (i : Int) * b.perSize := Int.mul_nonneg (by omega) hp0
  have hsucc : ((i + 1 : Nat) : Int) * b.perSize = (i : Int) * b.perSize + b.perSize := by
    push_cast
    ring
  have h := bounds_next b.perSize ((i : Int) * b.perSize) (b.soundData.length : Int) hp0 hp2 hLi hy0
    hprev
  unfold sliceSafe partBounds
  rw [hsucc]
  exact h

/-- Parts `0` to `i` are all sliced in range exactly when the per-part size is not negative and
part `i` starts inside the payload. -/
theorem sliceSafe_upto (b : BcutASR) (hp1 : -2 ^ 63 ≤ b.perSize) (hp2 : b.perSize < 2 ^ 63)
    (hL : b.soundData.length ≤ maxAlloc) (i : Nat) :
    (∀ j, j ≤ i → sliceSafe b j) ↔
      (0 ≤ b.perSize ∧ (i : Int) * b.perSize ≤ (b.soundData.length : Int)) := by
  induction i with
  | zero =>
    constructor
    · intro h
      have := (sliceSafe_zero b hp1 hp2).mp (h 0 (Nat.le_refl 0))
      exact ⟨this, by simp⟩
    · intro h j hj
      have : j = 0 := by omega
      subst this
      exact (sliceSafe_zero b hp1 hp2).mpr h.1
  | succ i ih =>
    constructor
    · intro h
      obtain ⟨hp0, hprev⟩ := ih.mp (fun j hj => h j (by omega))
      exact ⟨hp0, (sliceSafe_succ b i hp0 hp2 hL hprev).mp (h (i + 1) (Nat.le_refl _))⟩
    · intro h
      obtain ⟨hp0, hcur⟩ := h
      have hprev : (i : Int) * b.perSize ≤ (b.soundData.length : Int) := by
        have hsucc : ((i + 1 : Nat) : Int) * b.perSize = (i : Int) * b.perSize + b.perSize := by
          push_cast
          ring
        omega
      intro j hj
      rcases Nat.lt_or_ge j (i + 1) with hlt | hge
      · exact ih.mpr ⟨hp0, hprev⟩ j (by omega)
      · have : j = i + 1 := by omega
        subst this
        exact (sliceSafe_succ b i hp0 hp2 hL hprev).mpr hcur

theorem sliceSafe_iff_goSlice (b : BcutASR) (i : Nat) :
    sliceSafe b i ↔ (goSlice b.soundData (partBounds b i).1 (partBounds b i).2).isSome = true := by
  unfold sliceSafe goSlice
  split <;> simp_all

theorem sliceSafe_etags (b : BcutASR) (tags : List String) (i : Nat) :
    sliceSafe { b with etags := tags } i ↔ sliceSafe b i := Iff.rfl

theorem uploadParts.round_panic (env : Env) (t : Nat) (url : String) (i : Nat) (s : Run)
    (msg : String) (h : (uploadParts.loop env t [url] i s).1 = .panic msg) :
    t = 0 ∨ goSlice s.b.soundData (partBounds s.b i).1 (partBounds s.b i).2 = none := by
  rw [uploadParts.loop] at h
  by_cases hc : env.ctxDone s.sent.length = true
  · simp [hc] at h
  by_cases ht : t = 0
  · exact Or.inl ht
  right
  simp only [hc, ht, if_false, Bool.false_eq_true] at h
  cases hs : goSlice s.b.soundData (partBounds s.b i).1 (partBounds s.b i).2 with
  | none => rfl
  | some part =>
    exfalso
    simp only [hs] at h
    cases hn : env.newRequestError url with
    | some e => simp [hn] at h
    | none =>
      simp only [hn] at h
      split at h
      · simp at h
      · split at h
        · simp at h
        · simp [uploadParts.loop] at h

theorem uploadParts.round_ok_b (env : Env) (t : Nat) (url : String) (i : Nat) (s s2 : Run)
    (h : uploadParts.loop env t [url] i s = (.ok (), s2)) :
    ∃ tag : String, s2.b = { s.b with etags := s.b.etags ++ [tag] } := by
  rcases uploadParts.loop_round env t url [] i s with
    ⟨_, _, h3⟩ | ⟨_, _, h3⟩ | ⟨tag, s3, _, _, hloop, _, hb⟩
  · rw [h] at h3
    exact absurd rfl h3
  · rw [h] at h3
    rcases h3 with ⟨_, h3⟩ | ⟨_, h3⟩
    · exact absurd rfl h3
    · simp at h3
  · rw [h] at hloop
    simp only [uploadParts.loop, Prod.mk.injEq, true_and] at hloop
    exact ⟨tag, by rw [hloop, hb]⟩

/-- A loop of `uploadParts` whose parts are all sliced in range does not panic. -/
theorem uploadParts.loop_no_panic (env : Env) (t : Nat) (urls : List String) (i : Nat) (s : Run)
    (ht : t ≠ 0) (hsafe : ∀ j, i ≤ j → j < i + urls.length → sliceSafe s.b j) (msg : String) :
    (uploadParts.loop env t urls i s).1 ≠ .panic msg := by
  induction urls generalizing i s with
  | nil => simp [uploadParts.loop]
  | cons url rest ih =>
    have h0 := (sliceSafe_iff_goSlice s.b i).mp (hsafe i (Nat.le_refl i) (by simp))
    rw [uploadParts.loop_cons]
    rcases hr : uploadParts.loop env t [url] i s with ⟨r, s2⟩
    cases r with
    | ok u =>
      cases u
      obtain ⟨tag, hb⟩ := uploadParts.round_ok_b env t url i s s2 hr
      simp only
      apply ih (i + 1) s2
      intro j hj1 hj2
      rw [hb]
      exact (sliceSafe_etags s.b _ j).mpr
        (hsafe j (by omega) (by simp only [List.length_cons]; omega))
    | err e => simp
    | panic m =>
      exfalso
      have hp : (uploadParts.loop env t [url] i s).1 = .panic m := by rw [hr]
      rcases uploadParts.round_panic env t url i s m hp with h | h
      · exact ht h
      · rw [h] at h0
        simp at h0

/-- C14: for a payload held in memory and a per-part size that is a Go `int`, the bounds computed
for a part that the loop reaches (all earlier parts were sliced in range) satisfy
`0 <= start <= end <= L` if and only if `p >= 0` and `i * p <= L`; all `N >= 1` parts are sliced
in range exactly when `p >= 0` and `(N - 1) * p <= L`, which holds whenever `p > 0` and
`N = ceil(L / p)`; when all parts are sliced in range `uploadParts` does not panic, and with an
empty URL list it only delivers the final report. -/
theorem slice_bounds_in_range_iff (env : Env) (s : Run)
    (hp1 : -2 ^ 63 ≤ s.b.perSize) (hp2 : s.b.perSize < 2 ^ 63)
    (hL : s.b.soundData.length ≤ maxAlloc) :
    (∀ i, (∀ j, j < i → sliceSafe s.b j) →
      (sliceSafe s.b i ↔
        (0 ≤ s.b.perSize ∧ (i : Int) * s.b.perSize ≤ (s.b.soundData.length : Int)))) ∧
    (∀ i, sliceSafe s.b i ↔
      (goSlice s.b.soundData (partBounds s.b i).1 (partBounds s.b i).2).isSome = true) ∧
    (∀ N, 1 ≤ N →
      ((∀ i, i < N → sliceSafe s.b i) ↔
        (0 ≤ s.b.perSize ∧ ((N - 1 : Nat) : Int) * s.b.perSize ≤ (s.b.soundData.length : Int)))) ∧
    (∀ p N : Nat, 0 < p → s.b.perSize = (p : Int) → N = (s.b.soundData.length + p - 1) / p →
      ∀ i, i < N → sliceSafe s.b i) ∧
    ((∀ i, i < s.b.uploadURLs.length → sliceSafe s.b i) →
      ∀ msg, (uploadParts env s).1 ≠ .panic msg) ∧
    (s.b.uploadURLs = [] →
      uploadParts env s = (.ok (), reportProgress s .StageUpload 100 "上传完成")) := by
  have hall : ∀ N, 1 ≤ N →
      ((∀ i, i < N → sliceSafe s.b i) ↔
        (0 ≤ s.b.perSize ∧ ((N - 1 : Nat) : Int) * s.b.perSize ≤ (s.b.soundData.length : Int))) := by
    intro N hN
    rw [← sliceSafe_upto s.b hp1 hp2 hL (N - 1)]
    constructor
    · intro h j hj
      exact h j (by omega)
    · intro h i hi
      exact h i (by omega)
  refine ⟨?_, sliceSafe_iff_goSlice s.b, hall, ?_, ?_, ?_⟩
  · intro i hprev
    rw [← sliceSafe_upto s.b hp1 hp2 hL i]
    constructor
    · intro h j hj
      rcases Nat.lt_or_ge j i with hlt | hge
      · exact hprev j hlt
      · have : j = i := by omega
        subst this
        exact h
    · intro h
      exact h i (Nat.le_refl i)
  · intro p N hp hper hN i hi
    have hLpos : 0 < s.b.soundData.length := by
      by_contra h0
      have hz : s.b.soundData.length = 0 := by omega
      rw [hz] at hN
      have : (0 + p - 1) / p = 0 := Nat.div_eq_of_lt (by omega)
      omega
    obtain ⟨hNpos, hlast, _⟩ := ceil_parts _ p N hp hLpos hN
    refine (hall N hNpos).mpr ⟨by rw [hper]; omega, ?_⟩ i hi
    rw [hper]
    have : (N - 1) * p ≤ s.b.soundData.length := Nat.le_of_lt hlast
    exact_mod_cast this
  · intro hsafe msg
    have h3 := (uploadParts_fst_snd env s).2.2
    rw [h3]
    by_cases hnil : s.b.uploadURLs = []
    · rw [hnil]
      simp [uploadParts.loop]
    · apply uploadParts.loop_no_panic
      · intro h0
        exact hnil (List.eq_nil_of_length_eq_zero h0)
      · intro j _ hj
        exact hsafe j (by omega)
  · intro hnil
    unfold uploadParts
    rw [hnil]
    simp [uploadParts.loop]

/-- Witness of C14: 9 bytes in parts of 4 bytes: the three parts of the plan are sliced in range,
a fourth part would not be. -/
theorem slice_bounds_in_range_iff_witness :
    ((∀ i, i < 3 → sliceSafe { New with soundData := testData, perSize := 4 } i) ↔
      ((0 : Int) ≤ 4 ∧ ((3 - 1 : Nat) : Int) * 4 ≤ ((testData.length : Nat) : Int))) ∧
    ¬ sliceSafe { New with soundData := testData, perSize := 4 } 3 :=
  ⟨(slice_bounds_in_range_iff (scriptedEnv testPlan "" 0)
      (Run.start { New with soundData := testData, perSize := 4 })
      (by decide) (by decide) (by decide)).2.2.1 3 (by decide),
    by decide⟩

/-! ## Reading a rendered SRT side back -/

theorem digitChar_read : ∀ k : Fin 10,
    (Nat.digitChar k.val).toNat - 48 = k.val ∧ (Nat.digitChar k.val).isDigit = true := by
  decide

theorem readStep_foldl_zeros (k : Nat) (cs : List Char) :
    readDecimal (List.replicate k '0' ++ cs) = readDecimal cs := by
  unfold readDecimal
  induction k with
  | zero => rfl
  | succ k ih =>
    rw [List.replicate_succ, List.cons_append, List.foldl_cons]
    exact ih

theorem toDigitsCore_read (fuel n : Nat) (ds : List Char) (h : n < fuel) :
    (Nat.toDigitsCore 10 fuel n ds).foldl (fun acc c => 10 * acc + (c.toNat - 48)) 0 =
      ds.foldl (fun acc c => 10 * acc + (c.toNat - 48)) n := by
  induction fuel generalizing n ds with
  | zero => omega
  | succ fuel ih =>
    have hd := (digitChar_read ⟨n % 10, Nat.mod_lt n (by decide)⟩).1
    simp only at hd
    rw [Nat.toDigitsCore]
    by_cases h0 : n / 10 = 0
    · simp only [h0, if_true, List.foldl_cons, hd]
      have : 10 * 0 + n % 10 = n := by omega
      rw [this]
    · simp only [h0, if_false]
      rw [ih (n / 10) _ (by omega), List.foldl_cons, hd]
      have : 10 * (n / 10) + n % 10 = n := by omega
      rw [this]

theorem toDigitsCore_digits (fuel n : Nat) (ds : List Char) (h : ∀ c ∈ ds, c.isDigit = true) :
    ∀ c ∈ Nat.toDigitsCore 10 fuel n ds, c.isDigit = true := by
  induction fuel generalizing n ds with
  | zero => simpa [Nat.toDigitsCore] using h
  | succ fuel ih =>
    have hd := (digitChar_read ⟨n % 10, Nat.mod_lt n (by decide)⟩).2
    simp only at hd
    have hcons : ∀ c ∈ Nat.digitChar (n % 10) :: ds, c.isDigit = true := by
      intro c hc
      rcases List.mem_cons.mp hc with rfl | hc
      · exact hd
      · exact h c hc
    rw [Nat.toDigitsCore]
    by_cases h0 : n / 10 = 0
    · simpa only [h0, if_true] using hcons
    · simp only [h0, if_false]
      exact ih (n / 10) _ hcons

/-- The text of a zero-padded field holds decimal digits only and reads back as the number. -/
theorem fmtD0_read (w n : Nat) :
    readDecimal (fmtD0 w (n : Int)).data = n ∧ ∀ c ∈ (fmtD0 w (n : Int)).data, c.isDigit = true := by
  have hneg : ¬ ((n : Int) < 0) := by omega
  have hdata : (fmtD0 w (n : Int)).data =
      List.replicate (w - (decimal n).length) '0' ++ Nat.toDigitsCore 10 (n + 1) n [] := by
    simp only [fmtD0, hneg, if_false, Int.natAbs_ofNat, zeroFill, String.data_append]
    rfl
  rw [hdata]
  constructor
  · rw [readStep_foldl_zeros]
    unfold readDecimal
    rw [toDigitsCore_read (n + 1) n [] (by omega)]
    rfl
  · intro c hc
    rcases List.mem_append.mp hc with hc | hc
    · have := List.eq_of_mem_replicate hc
      rw [this]
      decide
    · exact toDigitsCore_digits (n + 1) n [] (by simp) c hc

theorem takeWhile_digits (ds rest : List Char) (h : ∀ c ∈ ds, c.isDigit = true)
    (hrest : ∀ c, rest.head? = some c → c.isDigit = false) :
    (ds ++ rest).takeWhile Char.isDigit = ds ∧ (ds ++ rest).dropWhile Char.isDigit = rest := by
  induction ds with
  | nil =>
    cases rest with
    | nil => simp
    | cons c rest =>
      have := hrest c rfl
      simp [List.takeWhile, List.dropWhile, this]
  | cons d ds ih =>
    have hd : d.isDigit = true := h d (by simp)
    obtain ⟨i1, i2⟩ := ih (fun c hc => h c (by simp [hc]))
    simp [List.takeWhile, List.dropWhile, hd, i1, i2]

theorem readField_field (w n : Nat) (sep : Char) (rest : List Char) (hsep : sep.isDigit = false) :
    readField ((fmtD0 w (n : Int)).data ++ sep :: rest) = (n, rest) := by
  obtain ⟨h1, h2⟩ := fmtD0_read w n
  obtain ⟨t1, t2⟩ := takeWhile_digits (fmtD0 w (n : Int)).data (sep :: rest) h2
    (by intro c hc; simp at hc; rw [← hc]; exact hsep)
  unfold readField
  rw [t1, t2, h1]
  rfl

theorem readField_last (w n : Nat) (tail : List Char)
    (htail : ∀ c, tail.head? = some c → c.isDigit = false) :
    (readField ((fmtD0 w (n : Int)).data ++ tail)).1 = n := by
  obtain ⟨h1, h2⟩ := fmtD0_read w n
  obtain ⟨t1, _⟩ := takeWhile_digits (fmtD0 w (n : Int)).data tail h2 htail
  unfold readField
  rw [t1, h1]

theorem formatSRTSide_natCast (ms : Nat) :
    formatSRTSide (ms : Int) =
      fmtD0 2 ((ms / 3600000 : Nat) : Int) ++ ":" ++ fmtD0 2 ((ms / 60000 % 60 : Nat) : Int) ++ ":" ++
        fmtD0 2 ((ms / 1000 % 60 : Nat) : Int) ++ "," ++ fmtD0 3 ((ms % 1000 : Nat) : Int) := by
  have c1 : ((3600000 : Nat) : Int) = 3600000 := rfl
  have c2 : ((60000 : Nat) : Int) = 60000 := rfl
  have c3 : ((1000 : Nat) : Int) = 1000 := rfl
  have c4 : ((60 : Nat) : Int) = 60 := rfl
  unfold formatSRTSide
  rw [← c1, ← c2, ← c3, ← c4]
  simp only [← Int.ofNat_tdiv, ← Int.ofNat_tmod]

/-- The four fields read from a rendered side, also when more text follows it. -/
theorem readSide_formatSRTSide (ms : Nat) (tail : List Char)
    (htail : ∀ c, tail.head? = some c → c.isDigit = false) :
    readSide (String.mk ((formatSRTSide (ms : Int)).data ++ tail)) =
      (ms / 3600000, ms / 60000 % 60, ms / 1000 % 60, ms % 1000) := by
  have hdata : (formatSRTSide (ms : Int)).data ++ tail =
      (fmtD0 2 ((ms / 3600000 : Nat) : Int)).data ++ ':' ::
        ((fmtD0 2 ((ms / 60000 % 60 : Nat) : Int)).data ++ ':' ::
          ((fmtD0 2 ((ms / 1000 % 60 : Nat) : Int)).data ++ ',' ::
            ((fmtD0 3 ((ms % 1000 : Nat) : Int)).data ++ tail))) := by
    rw [formatSRTSide_natCast]
    simp [String.data_append]
  unfold readSide
  simp only [hdata]
  rw [readField_field 2 _ ':' _ (by decide)]
  simp only
  rw [readField_field 2 _ ':' _ (by decide)]
  simp only
  rw [readField_field 2 _ ',' _ (by decide)]
  simp only
  rw [readField_last 3 _ tail htail]

theorem formatSRTTimestamp_sides_eq (start stop : Int) :
    formatSRTTimestamp start stop = formatSRTSide start ++ " --> " ++ formatSRTSide stop := by
  unfold formatSRTTimestamp formatSRTSide
  simp only [String.append_assoc]

theorem readSide_side (ms : Nat) :
    readSide (formatSRTSide (ms : Int)) =
      (ms / 3600000, ms / 60000 % 60, ms / 1000 % 60, ms % 1000) := by
  have h := readSide_formatSRTSide ms [] (by simp)
  simpa using h

theorem readSide_timestamp (start : Nat) (stop : Int) :
    readSide (formatSRTTimestamp (start : Int) stop) =
      (start / 3600000, start / 60000 % 60, start / 1000 % 60, start % 1000) := by
  have h := readSide_formatSRTSide start (" --> ".data ++ (formatSRTSide stop).data)
    (by intro c hc; simp at hc; rw [← hc]; decide)
  rw [formatSRTTimestamp_sides_eq]
  have hs : formatSRTSide (start : Int) ++ " --> " ++ formatSRTSide stop =
      String.mk ((formatSRTSide (start : Int)).data ++ (" --> ".data ++ (formatSRTSide stop).data)) := by
    apply String.ext
    simp [String.data_append]
  rw [hs]
  exact h

theorem fields_determine (a b : Nat)
    (h : (a / 3600000, a / 60000 % 60, a / 1000 % 60, a % 1000) =
      (b / 3600000, b / 60000 % 60, b / 1000 % 60, b % 1000)) : a = b := by
  simp only [Prod.mk.injEq] at h
  omega

/-- C15: for every millisecond count `ms >= 0`, the four decimal fields read from the side that
`formatSRTTimestamp` renders are `ms / 3600000`, `(ms / 60000) mod 60`, `(ms / 1000) mod 60` and
`ms mod 1000`; the last three are below 60, 60 and 1000 and the fields recombine to `ms`, so
different non-negative times render to different sides and different timestamps;
`formatLRCTimestamp` renders `ms` like `ms - ms mod 10`, so it is not injective. -/
theorem srt_side_is_lossless (ms : Nat) :
    (∀ stop : Int, formatSRTTimestamp (ms : Int) stop =
      formatSRTSide (ms : Int) ++ " --> " ++ formatSRTSide stop) ∧
    readSide (formatSRTSide (ms : Int)) =
      (ms / 3600000, ms / 60000 % 60, ms / 1000 % 60, ms % 1000) ∧
    (readSide (formatSRTSide (ms : Int))).2.1 < 60 ∧
    (readSide (formatSRTSide (ms : Int))).2.2.1 < 60 ∧
    (readSide (formatSRTSide (ms : Int))).2.2.2 < 1000 ∧
    (readSide (formatSRTSide (ms : Int))).1 * 3600000 +
      (readSide (formatSRTSide (ms : Int))).2.1 * 60000 +
      (readSide (formatSRTSide (ms : Int))).2.2.1 * 1000 +
      (readSide (formatSRTSide (ms : Int))).2.2.2 = ms ∧
    (∀ other : Nat, formatSRTSide (ms : Int) = formatSRTSide (other : Int) → ms = other) ∧
    (∀ stop other stop2 : Nat,
      formatSRTTimestamp (ms : Int) (stop : Int) = formatSRTTimestamp (other : Int) (stop2 : Int) →
      ms = other ∧ stop = stop2) ∧
    formatLRCTimestamp (ms : Int) = formatLRCTimestamp ((ms - ms % 10 : Nat) : Int) ∧
    formatLRCTimestamp 0 = formatLRCTimestamp 9 := by
  have hread := readSide_side ms
  have hinj : ∀ a b : Nat, formatSRTSide (a : Int) = formatSRTSide (b : Int) → a = b := by
    intro a b h
    have ha := readSide_side a
    rw [h, readSide_side b] at ha
    exact fields_determine a b ha.symm
  refine ⟨formatSRTTimestamp_sides_eq _, hread, ?_, ?_, ?_, ?_, hinj ms, ?_, ?_, by decide⟩
  · rw [hread]
    exact Nat.mod_lt _ (by decide)
  · rw [hread]
    exact Nat.mod_lt _ (by decide)
  · rw [hread]
    exact Nat.mod_lt _ (by decide)
  · rw [hread]
    simp only
    omega
  · intro stop other stop2 h
    have h1 := readSide_timestamp ms (stop : Int)
    rw [h, readSide_timestamp other (stop2 : Int)] at h1
    have hms : ms = other := fields_determine ms other h1.symm
    subst hms
    refine ⟨rfl, hinj stop stop2 ?_⟩
    rw [formatSRTTimestamp_sides_eq, formatSRTTimestamp_sides_eq] at h
    have hd := congrArg String.data h
    simp only [String.data_append] at hd
    exact String.ext (List.append_cancel_left hd)
  · rw [formatLRCTimestamp_natCast, formatLRCTimestamp_natCast]
    unfold lrcStamp
    have e1 : (ms - ms % 10) / 60000 = ms / 60000 := by omega
    have e2 : (ms - ms % 10) / 1000 % 60 = ms / 1000 % 60 := by omega
    have e3 : (ms - ms % 10) % 1000 / 10 = ms % 1000 / 10 := by omega
    rw [e1, e2, e3]

/-- Witness of C15: the side of 1 h 2 min 3 s 4 ms reads back as 1, 2, 3, 4; the sides of 1000
and 1001 ms differ, while the LRC stamps of 1000 and 1009 ms are the same. -/
theorem srt_side_is_lossless_witness :
    readSide (formatSRTSide ((3723004 : Nat) : Int)) =
      (3723004 / 3600000, 3723004 / 60000 % 60, 3723004 / 1000 % 60, 3723004 % 1000) ∧
    formatSRTSide ((1000 : Nat) : Int) ≠ formatSRTSide ((1001 : Nat) : Int) ∧
    formatLRCTimestamp ((1009 : Nat) : Int) = formatLRCTimestamp ((1009 - 1009 % 10 : Nat) : Int) :=
  ⟨(srt_side_is_lossless 3723004).2.1,
    fun h => absurd ((srt_side_is_lossless 1000).2.2.2.2.2.2.1 1001 h) (by decide),
    (srt_side_is_lossless 1009).2.2.2.2.2.2.2.2.1⟩

end Bcut
